import Mathlib

/-!
Caffe layers: `PowerLayer` and `Im2colLayer`

A shallow embedding of `src/caffe/layers/power_layer.cpp` and
`src/caffe/layers/im2col_layer.cpp`.

* A raw buffer (`Dtype*`) is a function `Nat → α`; a routine that writes `count`
  elements through a pointer returns the buffer with the cells `0 .. count-1`
  replaced and every other cell untouched.
* `Dtype` is an arbitrary field `α` with decidable equality (exact arithmetic);
  the definitions run on `ℚ`.  The power function (`pow`, `powx`) is a parameter
  `pw : α → α → α`.
* `int` values are `Int`; `/` and `%` are the truncating `Int.tdiv`, `Int.tmod`.
  Arithmetic is unbounded: signed overflow has no defined result in C++.
-/

set_option autoImplicit false
set_option linter.unusedSectionVars false

namespace Caffe

/-! ## Blob -/

/-- Modelled from the spec: the tensor container `Blob` (shape
`(num, channels, height, width)`, a value buffer and a gradient buffer of the
same shape). -/
structure Blob (α : Type) where
  num : Nat
  channels : Nat
  height : Nat
  width : Nat
  data : Nat → α
  diff : Nat → α

namespace Blob

variable {α : Type}

/-- Modelled from the spec: `count`, the total number of elements. -/
def count (b : Blob α) : Nat :=
  b.num * b.channels * b.height * b.width

/-- Modelled from the spec: `offset(n)`, the index of the first element of item
`n` (`((n * channels + 0) * height + 0) * width + 0`). -/
def offset (b : Blob α) (n : Nat) : Nat :=
  ((n * b.channels + 0) * b.height + 0) * b.width + 0

/-- The first `n` cells of a buffer, as a list. -/
def toList (n : Nat) (buf : Nat → α) : List α :=
  (List.range n).map buf

/-- A one-row blob (`1 × 1 × 1 × n`) holding `xs` as data and `gs` as diff. -/
def ofLists [Zero α] (xs gs : List α) : Blob α :=
  { num := 1, channels := 1, height := 1, width := xs.length,
    data := fun i => xs.getD i 0, diff := fun i => gs.getD i 0 }

end Blob

/-! ## Math backend (`device_->...`) -/

section Device

variable {α : Type}

/-- Modelled from the spec: `fill(count, value, dst)`, `Y[i] = alpha`. -/
def set (N : Nat) (alpha : α) (Y : Nat → α) : Nat → α :=
  fun i => if i < N then alpha else Y i

/-- Modelled from the spec: `copy(count, src, dst)`, `Y[i] = X[i]`. -/
def copy (N : Nat) (X Y : Nat → α) : Nat → α :=
  fun i => if i < N then X i else Y i

/-- Modelled from the spec: `scale(count, factor, buf)`, `X[i] = alpha * X[i]`. -/
def scal [Mul α] (N : Nat) (alpha : α) (X : Nat → α) : Nat → α :=
  fun i => if i < N then alpha * X i else X i

/-- Modelled from the spec: `addScalar(count, value, buf)`, `Y[i] += alpha`. -/
def add_scalar [Add α] (N : Nat) (alpha : α) (Y : Nat → α) : Nat → α :=
  fun i => if i < N then Y i + alpha else Y i

/-- Modelled from the spec: `elementwisePower(count, src, exponent, dst)`,
`y[i] = pow(a[i], b)`. -/
def powx (pw : α → α → α) (N : Nat) (a : Nat → α) (b : α) (y : Nat → α) : Nat → α :=
  fun i => if i < N then pw (a i) b else y i

/-- Modelled from the spec: `elementwiseDivide(count, a, b, dst)`,
`y[i] = a[i] / b[i]`. -/
def div [Div α] (N : Nat) (a b y : Nat → α) : Nat → α :=
  fun i => if i < N then a i / b i else y i

/-- Modelled from the spec: `elementwiseMultiply(count, a, b, dst)`,
`y[i] = a[i] * b[i]`. -/
def mul [Mul α] (N : Nat) (a b y : Nat → α) : Nat → α :=
  fun i => if i < N then a i * b i else y i

/-- Modelled from the spec: `scaledAdd(count, alpha, x, beta, dst)`,
`Y[i] = alpha * X[i] + beta * Y[i]`. -/
def axpby [Add α] [Mul α] (N : Nat) (alpha : α) (X : Nat → α) (beta : α)
    (Y : Nat → α) : Nat → α :=
  fun i => if i < N then alpha * X i + beta * Y i else Y i

end Device

/-! ## PowerLayer -/

/-- The fields of `PowerParameter` read by `PowerLayer::SetUp`. -/
structure PowerParameter (α : Type) where
  power : α
  scale : α
  shift : α

/-- The cached scalars of a `PowerLayer`. -/
structure PowerLayer (α : Type) where
  power_ : α
  scale_ : α
  shift_ : α
  diff_scale_ : α

namespace PowerLayer

variable {α : Type} [Field α] [DecidableEq α]

/-- The routine `PowerLayer::SetUp`. -/
def SetUp (power_param : PowerParameter α) : PowerLayer α :=
  { power_ := power_param.power
    scale_ := power_param.scale
    shift_ := power_param.shift
    diff_scale_ := power_param.power * power_param.scale }

/-- The routine `PowerLayer::Forward`: the new top blob and the returned loss. -/
def Forward (pw : α → α → α) (L : PowerLayer α) (bottom top : Blob α) : Blob α × α :=
  let top_data := top.data
  let count := bottom.count
  if L.diff_scale_ = 0 then
    let value := if L.power_ = 0 then 1 else pw L.shift_ L.power_
    ({ top with data := set count value top_data }, 0)
  else
    let bottom_data := bottom.data
    let top_data := copy count bottom_data top_data
    let top_data := if L.scale_ ≠ 1 then scal count L.scale_ top_data else top_data
    let top_data := if L.shift_ ≠ 0 then add_scalar count L.shift_ top_data else top_data
    let top_data := if L.power_ ≠ 1 then powx pw count top_data L.power_ top_data else top_data
    ({ top with data := top_data }, 0)

/-- The `power_ == 2` branch of `PowerLayer::Backward` (lines 65-69). -/
def BackwardPower2 (L : PowerLayer α) (count : Nat) (bottom_data bottom_diff : Nat → α) :
    Nat → α :=
  let bottom_diff := axpby count (L.diff_scale_ * L.scale_) bottom_data 0 bottom_diff
  if L.shift_ ≠ 0 then add_scalar count (L.diff_scale_ * L.shift_) bottom_diff
  else bottom_diff

/-- The `shift_ == 0` branch of `PowerLayer::Backward` (lines 75-77). -/
def BackwardShift0 (L : PowerLayer α) (count : Nat) (top_data bottom_data bottom_diff : Nat → α) :
    Nat → α :=
  let bottom_diff := div count top_data bottom_data bottom_diff
  scal count L.power_ bottom_diff

/-- The general branch of `PowerLayer::Backward` (lines 79-90). -/
def BackwardGeneral (L : PowerLayer α) (count : Nat)
    (top_data bottom_data bottom_diff : Nat → α) : Nat → α :=
  let bottom_diff := copy count bottom_data bottom_diff
  let bottom_diff := if L.scale_ ≠ 1 then scal count L.scale_ bottom_diff else bottom_diff
  let bottom_diff := if L.shift_ ≠ 0 then add_scalar count L.shift_ bottom_diff else bottom_diff
  let bottom_diff := div count top_data bottom_diff bottom_diff
  if L.diff_scale_ ≠ 1 then scal count L.diff_scale_ bottom_diff else bottom_diff

/-- The closing chain-rule step of `PowerLayer::Backward` (lines 93-95). -/
def BackwardChain (L : PowerLayer α) (count : Nat) (top_diff bottom_diff : Nat → α) :
    Nat → α :=
  if L.diff_scale_ ≠ 0 then mul count top_diff bottom_diff bottom_diff else bottom_diff

/-- The routine `PowerLayer::Backward`: the new bottom blob.  `propagate_down0` is
`propagate_down[0]`. -/
def Backward (L : PowerLayer α) (top : Blob α) (propagate_down0 : Bool) (bottom : Blob α) :
    Blob α :=
  if propagate_down0 then
    let bottom_diff := bottom.diff
    let count := bottom.count
    let top_diff := top.diff
    let bottom_diff :=
      if L.diff_scale_ = 0 ∨ L.power_ = 1 then
        set count L.diff_scale_ bottom_diff
      else
        let bottom_data := bottom.data
        if L.power_ = 2 then
          BackwardPower2 L count bottom_data bottom_diff
        else if L.shift_ = 0 then
          BackwardShift0 L count top.data bottom_data bottom_diff
        else
          BackwardGeneral L count top.data bottom_data bottom_diff
    { bottom with diff := BackwardChain L count top_diff bottom_diff }
  else
    bottom

end PowerLayer

/-- An executable power on `ℚ`: integral exponents only, `0` otherwise. -/
def qpow (z p : ℚ) : ℚ :=
  if p.den = 1 then z ^ p.num else 0

/-! ## Im2colLayer -/

/-- The optional fields of `ConvolutionParameter` read by `Im2colLayer::SetUp`;
`none` is a field that is not set. -/
structure ConvolutionParameter where
  kernel_size_ : Option Int := none
  kernel_h_ : Option Int := none
  kernel_w_ : Option Int := none
  pad_ : Option Int := none
  pad_h_ : Option Int := none
  pad_w_ : Option Int := none
  stride_ : Option Int := none
  stride_h_ : Option Int := none
  stride_w_ : Option Int := none

namespace ConvolutionParameter

def has_kernel_size (p : ConvolutionParameter) : Bool := p.kernel_size_.isSome
def has_kernel_h (p : ConvolutionParameter) : Bool := p.kernel_h_.isSome
def has_kernel_w (p : ConvolutionParameter) : Bool := p.kernel_w_.isSome
def has_pad (p : ConvolutionParameter) : Bool := p.pad_.isSome
def has_pad_h (p : ConvolutionParameter) : Bool := p.pad_h_.isSome
def has_pad_w (p : ConvolutionParameter) : Bool := p.pad_w_.isSome
def has_stride (p : ConvolutionParameter) : Bool := p.stride_.isSome
def has_stride_h (p : ConvolutionParameter) : Bool := p.stride_h_.isSome
def has_stride_w (p : ConvolutionParameter) : Bool := p.stride_w_.isSome

/-- Accessor `kernel_size()`; an unset field reads as `0` (`SetUp` reads a kernel field
only after checking that it is present). -/
def kernel_size (p : ConvolutionParameter) : Int := p.kernel_size_.getD 0
/-- Accessor `kernel_h()`; an unset field reads as `0` (`SetUp` reads a kernel field
only after checking that it is present). -/
def kernel_h (p : ConvolutionParameter) : Int := p.kernel_h_.getD 0
/-- Accessor `kernel_w()`; an unset field reads as `0` (`SetUp` reads a kernel field
only after checking that it is present). -/
def kernel_w (p : ConvolutionParameter) : Int := p.kernel_w_.getD 0
/-- Modelled from the spec: pad defaults to `0` when unspecified. -/
def pad (p : ConvolutionParameter) : Int := p.pad_.getD 0
/-- Modelled from the spec: pad defaults to `0` when unspecified. -/
def pad_h (p : ConvolutionParameter) : Int := p.pad_h_.getD 0
/-- Modelled from the spec: pad defaults to `0` when unspecified. -/
def pad_w (p : ConvolutionParameter) : Int := p.pad_w_.getD 0
/-- Modelled from the spec: stride defaults to `1` when unspecified. -/
def stride (p : ConvolutionParameter) : Int := p.stride_.getD 1
/-- Modelled from the spec: stride defaults to `1` when unspecified. -/
def stride_h (p : ConvolutionParameter) : Int := p.stride_h_.getD 1
/-- Modelled from the spec: stride defaults to `1` when unspecified. -/
def stride_w (p : ConvolutionParameter) : Int := p.stride_w_.getD 1

end ConvolutionParameter

/-- The ways `Im2colLayer::SetUp` stops: one per `CHECK`, in source order, and
the integer division by a zero stride at the `Reshape` call. -/
inductive SetUpError
  /-- Message "Filter size is kernel_size OR kernel_h and kernel_w; not both" -/
  | filter_size_not_both
  /-- Message "For non-square filters both kernel_h and kernel_w are required." -/
  | filter_size_required
  /-- Message "pad is pad OR pad_h and pad_w are required." -/
  | pad_form
  /-- Message "Stride is stride OR stride_h and stride_w are required." -/
  | stride_form
  /-- Message "Filter dimensions cannot be zero." (`CHECK_GT(kernel_h_, 0)`) -/
  | kernel_h_not_positive
  /-- Message "Filter dimensions cannot be zero." (`CHECK_GT(kernel_w_, 0)`) -/
  | kernel_w_not_positive
  /-- Division by a zero stride: no result is defined. -/
  | division_by_zero
  deriving DecidableEq

/-- The failures that are a `CHECK` on the parameters (configuration errors). -/
def SetUpError.isConfigurationError : SetUpError → Bool
  | .division_by_zero => false
  | _ => true

/-- The four arguments of `Blob::Reshape`. -/
structure Shape where
  num : Int
  channels : Int
  height : Int
  width : Int
  deriving DecidableEq

/-- The shape of a blob, as `int`s. -/
def Blob.shape {α : Type} (b : Blob α) : Shape :=
  { num := b.num, channels := b.channels, height := b.height, width := b.width }

/-- The cached members of an `Im2colLayer`. -/
structure Im2colLayer where
  kernel_h_ : Int
  kernel_w_ : Int
  stride_h_ : Int
  stride_w_ : Int
  channels_ : Int
  height_ : Int
  width_ : Int
  pad_h_ : Int
  pad_w_ : Int
  deriving DecidableEq

namespace Im2colLayer

/-- The first `CHECK` of `SetUp` (lines 16-18). -/
def kernel_check_1 (conv_param : ConvolutionParameter) : Bool :=
  (!conv_param.has_kernel_size) !=
    !(conv_param.has_kernel_h && conv_param.has_kernel_w)

/-- The second `CHECK` of `SetUp` (lines 19-21). -/
def kernel_check_2 (conv_param : ConvolutionParameter) : Bool :=
  conv_param.has_kernel_size ||
    (conv_param.has_kernel_h && conv_param.has_kernel_w)

/-- The third `CHECK` of `SetUp` (lines 22-25). -/
def pad_check (conv_param : ConvolutionParameter) : Bool :=
  (!conv_param.has_pad && conv_param.has_pad_h && conv_param.has_pad_w)
    || (!conv_param.has_pad_h && !conv_param.has_pad_w)

/-- The fourth `CHECK` of `SetUp` (lines 26-29). -/
def stride_check (conv_param : ConvolutionParameter) : Bool :=
  (!conv_param.has_stride && conv_param.has_stride_h && conv_param.has_stride_w)
    || (!conv_param.has_stride_h && !conv_param.has_stride_w)

/-- The kernel extents resolved at lines 30-35. -/
def resolve_kernel (conv_param : ConvolutionParameter) : Int × Int :=
  if conv_param.has_kernel_size then
    (conv_param.kernel_size, conv_param.kernel_size)
  else
    (conv_param.kernel_h, conv_param.kernel_w)

/-- The pads resolved at lines 38-43. -/
def resolve_pad (conv_param : ConvolutionParameter) : Int × Int :=
  if !conv_param.has_pad_h then
    (conv_param.pad, conv_param.pad)
  else
    (conv_param.pad_h, conv_param.pad_w)

/-- The strides resolved at lines 44-49. -/
def resolve_stride (conv_param : ConvolutionParameter) : Int × Int :=
  if !conv_param.has_stride_h then
    (conv_param.stride, conv_param.stride)
  else
    (conv_param.stride_h, conv_param.stride_w)

/-- The routine `Im2colLayer::SetUp` on a bottom blob of shape `bottom`: the cached members
and the arguments handed to `(*top)[0]->Reshape`, or the first failing step. -/
def SetUp (conv_param : ConvolutionParameter) (bottom : Shape) :
    Except SetUpError (Im2colLayer × Shape) :=
  if !kernel_check_1 conv_param then .error .filter_size_not_both
  else if !kernel_check_2 conv_param then .error .filter_size_required
  else if !pad_check conv_param then .error .pad_form
  else if !stride_check conv_param then .error .stride_form
  else
    let (kernel_h_, kernel_w_) := resolve_kernel conv_param
    if ¬ (kernel_h_ > 0) then .error .kernel_h_not_positive
    else if ¬ (kernel_w_ > 0) then .error .kernel_w_not_positive
    else
      let (pad_h_, pad_w_) := resolve_pad conv_param
      let (stride_h_, stride_w_) := resolve_stride conv_param
      let channels_ := bottom.channels
      let height_ := bottom.height
      let width_ := bottom.width
      if stride_h_ = 0 ∨ stride_w_ = 0 then .error .division_by_zero
      else
        .ok ({ kernel_h_ := kernel_h_, kernel_w_ := kernel_w_,
               stride_h_ := stride_h_, stride_w_ := stride_w_,
               channels_ := channels_, height_ := height_, width_ := width_,
               pad_h_ := pad_h_, pad_w_ := pad_w_ },
             { num := bottom.num
               channels := channels_ * kernel_h_ * kernel_w_
               height := (height_ + 2 * pad_h_ - kernel_h_).tdiv stride_h_ + 1
               width := (width_ + 2 * pad_w_ - kernel_w_).tdiv stride_w_ + 1 })

end Im2colLayer

/-! ### The unfold / fold primitives -/

/-- A counted loop `for (int i = 0; i < n; ++i) body`. -/
def for_loop {σ : Type} (n : Int) (body : σ → Nat → σ) (s : σ) : σ :=
  (List.range n.toNat).foldl body s

/-- The pointer `p + off`. -/
def ptr_add {α : Type} (p : Nat → α) (off : Nat) : Nat → α :=
  fun i => p (off + i)

/-- The buffer `p` after the cells reached through `p + off` became `q`. -/
def ptr_store {α : Type} (p : Nat → α) (off : Nat) (q : Nat → α) : Nat → α :=
  fun k => if off ≤ k then q (k - off) else p k

/-- The arguments of the unfold / fold primitives. -/
structure Window where
  channels : Int
  height : Int
  width : Int
  kernel_h : Int
  kernel_w : Int
  pad_h : Int
  pad_w : Int
  stride_h : Int
  stride_w : Int

namespace Window

def height_col (g : Window) : Int :=
  (g.height + 2 * g.pad_h - g.kernel_h).tdiv g.stride_h + 1

def width_col (g : Window) : Int :=
  (g.width + 2 * g.pad_w - g.kernel_w).tdiv g.stride_w + 1

def channels_col (g : Window) : Int :=
  g.channels * g.kernel_h * g.kernel_w

def w_offset (g : Window) (c : Nat) : Int := (c : Int).tmod g.kernel_w

def h_offset (g : Window) (c : Nat) : Int := ((c : Int).tdiv g.kernel_w).tmod g.kernel_h

def c_im (g : Window) (c : Nat) : Int := ((c : Int).tdiv g.kernel_h).tdiv g.kernel_w

def h_pad (g : Window) (c h : Nat) : Int := (h : Int) * g.stride_h - g.pad_h + g.h_offset c

def w_pad (g : Window) (c w : Nat) : Int := (w : Int) * g.stride_w - g.pad_w + g.w_offset c

/-- The test `h_pad >= 0 && h_pad < height && w_pad >= 0 && w_pad < width`. -/
def inside (g : Window) (c h w : Nat) : Prop :=
  g.h_pad c h ≥ 0 ∧ g.h_pad c h < g.height ∧ g.w_pad c w ≥ 0 ∧ g.w_pad c w < g.width

instance (g : Window) (c h w : Nat) : Decidable (g.inside c h w) := by
  unfold inside; infer_instance

/-- The column index `(c * height_col + h) * width_col + w`. -/
def col_index (g : Window) (c h w : Nat) : Nat :=
  (((c : Int) * g.height_col + h) * g.width_col + w).toNat

/-- The image index `(c_im * height + h_pad) * width + w_pad`. -/
def im_index (g : Window) (c h w : Nat) : Nat :=
  ((g.c_im c * g.height + g.h_pad c h) * g.width + g.w_pad c w).toNat

end Window

/-- Modelled from the spec: the external `unfold` primitive (`im2col`), which
rearranges the `channels × height × width` block at `data_im` into the
`channels·kernelH·kernelW × outH × outW` column block at `data_col`, reading
zero outside the input bounds, with the given stride. -/
def im2col {α : Type} [Zero α] (data_im : Nat → α)
    (channels height width kernel_h kernel_w pad_h pad_w stride_h stride_w : Int)
    (data_col : Nat → α) : Nat → α :=
  let g : Window := ⟨channels, height, width, kernel_h, kernel_w, pad_h, pad_w,
    stride_h, stride_w⟩
  for_loop g.channels_col (fun data_col c =>
    for_loop g.height_col (fun data_col h =>
      for_loop g.width_col (fun data_col w =>
        if g.inside c h w then
          Function.update data_col (g.col_index c h w) (data_im (g.im_index c h w))
        else
          Function.update data_col (g.col_index c h w) 0) data_col) data_col) data_col

/-- Modelled from the spec: the external `fold` primitive (`col2im`), the
additive accumulation of the column block at `data_col` back into the
`channels × height × width` block at `data_im`: the block is cleared, then every
column cell that `unfold` read from an image cell is added to that cell. -/
def col2im {α : Type} [Zero α] [Add α] (data_col : Nat → α)
    (channels height width kernel_h kernel_w pad_h pad_w stride_h stride_w : Int)
    (data_im : Nat → α) : Nat → α :=
  let g : Window := ⟨channels, height, width, kernel_h, kernel_w, pad_h, pad_w,
    stride_h, stride_w⟩
  let data_im := set (height * width * channels).toNat 0 data_im
  for_loop g.channels_col (fun data_im c =>
    for_loop g.height_col (fun data_im h =>
      for_loop g.width_col (fun data_im w =>
        if g.inside c h w then
          Function.update data_im (g.im_index c h w)
            (data_im (g.im_index c h w) + data_col (g.col_index c h w))
        else
          data_im) data_im) data_im) data_im

namespace Im2colLayer

variable {α : Type} [Field α]

/-- The arguments `Forward` and `Backward` hand to the unfold / fold primitives. -/
def window (L : Im2colLayer) : Window :=
  ⟨L.channels_, L.height_, L.width_, L.kernel_h_, L.kernel_w_, L.pad_h_, L.pad_w_,
    L.stride_h_, L.stride_w_⟩

/-- The routine `Im2colLayer::Forward`: the new top blob and the returned loss. -/
def Forward (L : Im2colLayer) (bottom top : Blob α) : Blob α × α :=
  let bottom_data := bottom.data
  let top_data := top.data
  let top_data := for_loop bottom.num (fun top_data n =>
    ptr_store top_data (top.offset n)
      (im2col (ptr_add bottom_data (bottom.offset n)) L.channels_ L.height_
        L.width_ L.kernel_h_ L.kernel_w_ L.pad_h_ L.pad_w_
        L.stride_h_ L.stride_w_ (ptr_add top_data (top.offset n)))) top_data
  ({ top with data := top_data }, 0)

/-- The routine `Im2colLayer::Backward`: the new bottom blob. -/
def Backward (L : Im2colLayer) (top : Blob α) (_propagate_down : List Bool)
    (bottom : Blob α) : Blob α :=
  let top_diff := top.diff
  let bottom_diff := bottom.diff
  let bottom_diff := for_loop top.num (fun bottom_diff n =>
    ptr_store bottom_diff (bottom.offset n)
      (col2im (ptr_add top_diff (top.offset n)) L.channels_ L.height_ L.width_
        L.kernel_h_ L.kernel_w_ L.pad_h_ L.pad_w_
        L.stride_h_ L.stride_w_ (ptr_add bottom_diff (bottom.offset n)))) bottom_diff
  { bottom with diff := bottom_diff }

/-- The dot product of the first `n` cells of two buffers. -/
def dot (n : Nat) (a b : Nat → α) : α :=
  ∑ i in Finset.range n, a i * b i

end Im2colLayer

end Caffe

/-! # Theorems -/

namespace Caffe

/-! ## The executable power on `ℚ` obeys the power laws -/

theorem qpow_zero (z : ℚ) : qpow z 0 = 1 := by
  simp [qpow]

theorem qpow_one (z : ℚ) : qpow z 1 = z := by
  simp [qpow]

theorem qpow_pred (z p : ℚ) (hz : z ≠ 0) : qpow z p = z * qpow z (p - 1) := by
  unfold qpow
  by_cases hp : p.den = 1
  · have hp1 : (p - 1).den = 1 := by
      have h := Rat.coe_int_num_of_den_eq_one hp
      rw [← h]
      have : ((p.num : ℚ) - 1) = ((p.num - 1 : ℤ) : ℚ) := by push_cast; ring
      rw [this]; exact Rat.den_intCast _
    have hn : (p - 1).num = p.num - 1 := by
      have h := Rat.coe_int_num_of_den_eq_one hp
      have : p - 1 = ((p.num - 1 : ℤ) : ℚ) := by push_cast; rw [h]
      rw [this]; exact Rat.num_intCast _
    rw [if_pos hp, if_pos hp1, hn, zpow_sub_one₀ hz]
    field_simp
  · have hp1 : ¬ (p - 1).den = 1 := by
      intro h
      apply hp
      have h1 := Rat.coe_int_num_of_den_eq_one h
      have : p = (((p - 1).num + 1 : ℤ) : ℚ) := by push_cast; rw [h1]; ring
      rw [this]; exact Rat.den_intCast _
    rw [if_neg hp, if_neg hp1, mul_zero]

/-- The real power `Real.rpow` obeys the law `z ^ p = z * z ^ (p - 1)` away from
zero (together with `Real.rpow_zero` and `Real.rpow_one`). -/
theorem rpow_pred (z p : ℝ) (hz : z ≠ 0) : z ^ p = z * z ^ (p - 1) := by
  rw [Real.rpow_sub_one hz]; field_simp

namespace PowerLayer

variable {α : Type} [Field α] [DecidableEq α]

theorem BackwardGeneral_apply (L : PowerLayer α) (count : Nat)
    (top_data bottom_data bottom_diff : Nat → α) (i : Nat) (hi : i < count) :
    BackwardGeneral L count top_data bottom_data bottom_diff i
      = L.diff_scale_ * (top_data i / (L.shift_ + L.scale_ * bottom_data i)) := by
  obtain ⟨p, s, b, d⟩ := L
  by_cases hs1 : s = 1 <;> by_cases hb : b = 0 <;> by_cases hd1 : d = 1 <;>
    simp [BackwardGeneral, copy, scal, add_scalar, div, hi, hs1, hd1, hb, add_comm]

theorem BackwardShift0_apply (L : PowerLayer α) (count : Nat)
    (top_data bottom_data bottom_diff : Nat → α) (i : Nat) (hi : i < count) :
    BackwardShift0 L count top_data bottom_data bottom_diff i
      = L.power_ * (top_data i / bottom_data i) := by
  simp [BackwardShift0, scal, div, hi]

theorem BackwardPower2_apply (L : PowerLayer α) (count : Nat)
    (bottom_data bottom_diff : Nat → α) (i : Nat) (hi : i < count) :
    BackwardPower2 L count bottom_data bottom_diff i
      = L.diff_scale_ * L.scale_ * bottom_data i + L.diff_scale_ * L.shift_ := by
  obtain ⟨p, s, b, d⟩ := L
  by_cases hb : b = 0 <;> simp [BackwardPower2, axpby, add_scalar, hi, hb]

/-- The cells that `Forward` writes. -/
theorem Forward_data_lt (pw : α → α → α) (hpw0 : ∀ z : α, pw z 0 = 1)
    (hpw1 : ∀ z : α, pw z 1 = z) (param : PowerParameter α) (bottom top : Blob α)
    (i : Nat) (hi : i < bottom.count) :
    (Forward pw (SetUp param) bottom top).1.data i
      = pw (param.shift + param.scale * bottom.data i) param.power := by
  obtain ⟨p, s, b⟩ := param
  simp only [Forward, SetUp]
  by_cases hds : p * s = 0
  · rw [if_pos hds]
    simp only [set, if_pos hi]
    by_cases hp : p = 0
    · simp [hp, hpw0]
    · have hs : s = 0 := by
        rcases mul_eq_zero.mp hds with h | h
        · exact absurd h hp
        · exact h
      simp [hp, hs]
  · rw [if_neg hds]
    by_cases hs : s = 1 <;> by_cases hb : b = 0 <;> by_cases hp : p = 1 <;>
      simp [hs, hb, hp, copy, scal, add_scalar, powx, hi, hpw1, add_comm]

/-- The cells that `Forward` leaves alone. -/
theorem Forward_data_ge (pw : α → α → α) (L : PowerLayer α) (bottom top : Blob α)
    (i : Nat) (hi : bottom.count ≤ i) :
    (Forward pw L bottom top).1.data i = top.data i := by
  obtain ⟨p, s, b, d⟩ := L
  have hi' : ¬ i < bottom.count := Nat.not_lt.mpr hi
  simp only [Forward]
  by_cases hds : d = 0
  · rw [if_pos hds]; simp [set, hi']
  · rw [if_neg hds]
    by_cases hs : s = 1 <;> by_cases hb : b = 0 <;> by_cases hp : p = 1 <;>
      simp [hs, hb, hp, copy, scal, add_scalar, powx, hi']

/-- The routine `Forward` does not touch the gradient buffer of the top blob. -/
theorem Forward_diff (pw : α → α → α) (L : PowerLayer α) (bottom top : Blob α) :
    (Forward pw L bottom top).1.diff = top.diff := by
  simp only [Forward]; split <;> rfl

/-- C2. `Forward` computes `(shift + scale * x) ^ power` in every cell below
the bottom count, for all parameters (the degenerate and the skipped steps
included), leaves every other cell, the shape and the gradient buffer of the
top blob as they were, and returns `0`; the power only has to satisfy
`z ^ 0 = 1` and `z ^ 1 = z`. -/
theorem forward_spec (pw : α → α → α) (hpw0 : ∀ z : α, pw z 0 = 1)
    (hpw1 : ∀ z : α, pw z 1 = z) (param : PowerParameter α) (bottom top : Blob α) :
    (∀ i, i < bottom.count →
      (Forward pw (SetUp param) bottom top).1.data i
        = pw (param.shift + param.scale * bottom.data i) param.power)
    ∧ (∀ i, bottom.count ≤ i →
      (Forward pw (SetUp param) bottom top).1.data i = top.data i)
    ∧ (Forward pw (SetUp param) bottom top).1.shape = top.shape
    ∧ (Forward pw (SetUp param) bottom top).1.diff = top.diff
    ∧ (Forward pw (SetUp param) bottom top).2 = 0 := by
  refine ⟨Forward_data_lt pw hpw0 hpw1 param bottom top,
    Forward_data_ge pw (SetUp param) bottom top, ?_, Forward_diff pw _ bottom top, ?_⟩
  · simp only [Forward]; split <;> rfl
  · simp only [Forward]; split <;> rfl

/-- Witness of C2: `power = 2, scale = 1, shift = 0` on `[1, 2, 3]` gives
`[1, 4, 9]`. -/
theorem forward_spec_witness :
    Blob.toList 3
      (Forward qpow (SetUp ⟨2, 1, 0⟩) (Blob.ofLists [1, 2, 3] []) (Blob.ofLists [] [])).1.data
      = [1, 4, 9] := by
  have h := (forward_spec qpow qpow_zero qpow_one ⟨2, 1, 0⟩
    (Blob.ofLists [1, 2, 3] []) (Blob.ofLists [] [])).1
  have h0 := h 0 (by decide)
  have h1 := h 1 (by decide)
  have h2 := h 2 (by decide)
  simp only [Blob.toList, List.range_succ, List.range_zero, List.nil_append, List.cons_append,
    List.map_cons, List.map_nil, h0, h1, h2]
  norm_num [qpow, Blob.ofLists]

/-- C7. When `power * scale = 0`, `Forward` does not read the input: two
bottoms of the same count give the same result, every cell below the count is
`1` if `power = 0` and `shift ^ power` otherwise, and the returned loss is `0`. -/
theorem forward_degenerate (pw : α → α → α) (param : PowerParameter α)
    (hds : param.power * param.scale = 0) (bottom bottom' top : Blob α)
    (hcount : bottom.count = bottom'.count) :
    Forward pw (SetUp param) bottom top = Forward pw (SetUp param) bottom' top
    ∧ (∀ i, i < bottom.count →
      (Forward pw (SetUp param) bottom top).1.data i
        = if param.power = 0 then 1 else pw param.shift param.power)
    ∧ (Forward pw (SetUp param) bottom top).2 = 0 := by
  refine ⟨?_, ?_, ?_⟩
  · simp only [Forward, SetUp, hds, if_true, hcount]
  · intro i hi
    simp only [Forward, SetUp, hds, if_true, set, if_pos hi]
  · simp only [Forward, SetUp, hds, if_true]

/-- Witness of C7: `power = 3, scale = 0, shift = 2` gives the constant `8` on
two different inputs. -/
theorem forward_degenerate_witness :
    Forward qpow (SetUp ⟨3, 0, 2⟩) (Blob.ofLists [1, 2] []) (Blob.ofLists [] [])
        = Forward qpow (SetUp ⟨3, 0, 2⟩) (Blob.ofLists [5, 7] []) (Blob.ofLists [] [])
    ∧ (Forward qpow (SetUp ⟨3, 0, 2⟩) (Blob.ofLists [1, 2] []) (Blob.ofLists [] [])).1.data 1
        = 8 := by
  have h := forward_degenerate qpow ⟨3, 0, 2⟩ (by norm_num)
    (Blob.ofLists [1, 2] []) (Blob.ofLists [5, 7] []) (Blob.ofLists [] []) (by decide)
  refine ⟨h.1, ?_⟩
  rw [h.2.1 1 (by decide)]
  norm_num [qpow]

/-- C1. Chain rule: with `power * scale ≠ 0`, propagation requested, the top
data equal to `Forward` of the bottom data under the same parameters, and
`shift + scale * x i ≠ 0` in every cell, `Backward` leaves
`g i * power * scale * (shift + scale * x i) ^ (power - 1)` in every cell of the
bottom gradient, whichever branch runs. -/
theorem backward_chain_rule (pw : α → α → α) (hpw0 : ∀ z : α, pw z 0 = 1)
    (hpw1 : ∀ z : α, pw z 1 = z)
    (hpw : ∀ z p : α, z ≠ 0 → pw z p = z * pw z (p - 1))
    (param : PowerParameter α) (hds : param.power * param.scale ≠ 0)
    (bottom top : Blob α)
    (hz : ∀ i, i < bottom.count → param.shift + param.scale * bottom.data i ≠ 0) :
    ∀ i, i < bottom.count →
      (Backward (SetUp param) (Forward pw (SetUp param) bottom top).1 true bottom).diff i
        = top.diff i * param.power * param.scale
            * pw (param.shift + param.scale * bottom.data i) (param.power - 1) := by
  intro i hi
  have hfw := Forward_data_lt pw hpw0 hpw1 param bottom top i hi
  have hdiff := Forward_diff pw (SetUp param) bottom top
  have hzi := hz i hi
  generalize (Forward pw (SetUp param) bottom top).1 = Y at hfw hdiff ⊢
  obtain ⟨p, s, b⟩ := param
  simp only at hds hfw hzi ⊢
  have hp0 : p ≠ 0 := left_ne_zero_of_mul hds
  have hs0 : s ≠ 0 := right_ne_zero_of_mul hds
  simp only [Backward, if_true, BackwardChain, SetUp, ne_eq, hds, not_false_eq_true, mul,
    if_pos hi, false_or, hdiff]
  by_cases hp1 : p = 1
  · subst hp1
    simp [set, hi, hpw0]
  · rw [if_neg hp1]
    by_cases hp2 : p = 2
    · subst hp2
      rw [if_pos rfl, BackwardPower2_apply _ _ _ _ _ hi]
      have h21 : (2 : α) - 1 = 1 := by ring
      rw [h21, hpw1]
      ring
    · rw [if_neg hp2]
      by_cases hb : b = 0
      · subst hb
        rw [if_pos rfl, BackwardShift0_apply _ _ _ _ _ _ hi, hfw]
        simp only
        rw [zero_add] at hzi ⊢
        have hx : bottom.data i ≠ 0 := right_ne_zero_of_mul hzi
        rw [hpw _ p hzi]
        field_simp
        ring
      · rw [if_neg hb, BackwardGeneral_apply _ _ _ _ _ _ hi, hfw, hpw _ p hzi]
        simp only
        field_simp
        ring

/-- Witness of C1: `y = (1 + 2 x)^3` at `x = 1` with upstream gradient `5`
gives `5 * 3 * 2 * 3 ^ 2 = 270`. -/
theorem backward_chain_rule_witness :
    (Backward (SetUp ⟨3, 2, 1⟩)
      (Forward qpow (SetUp ⟨3, 2, 1⟩) (Blob.ofLists [1] []) (Blob.ofLists [] [5])).1 true
      (Blob.ofLists [1] [])).diff 0 = 270 := by
  have h := backward_chain_rule qpow qpow_zero qpow_one qpow_pred ⟨3, 2, 1⟩ (by norm_num)
    (Blob.ofLists [1] []) (Blob.ofLists [] [5])
    (by intro i hi
        have hi0 : i = 0 := by simpa [Blob.ofLists, Blob.count] using hi
        subst hi0
        norm_num [Blob.ofLists])
    0 (by decide)
  rw [h]
  norm_num [qpow, Blob.ofLists]

/-- C8. With `power = 2` and `scale ≠ 0`, propagation requested, `Backward`
leaves `g i * (diffScale * scale * x i + diffScale * shift)
= g i * 2 * scale * (shift + scale * x i)` in every cell of the bottom
gradient; the value does not depend on the top data (nothing is divided by
it or read from it). -/
theorem backward_power_two (s b : α) (hs : s ≠ 0) (bottom top : Blob α) :
    (∀ i, i < bottom.count →
      (Backward (SetUp ⟨2, s, b⟩) top true bottom).diff i
          = top.diff i * ((SetUp ⟨2, s, b⟩).diff_scale_ * s * bottom.data i
              + (SetUp ⟨2, s, b⟩).diff_scale_ * b)
      ∧ (Backward (SetUp ⟨2, s, b⟩) top true bottom).diff i
          = top.diff i * 2 * s * (b + s * bottom.data i))
    ∧ (∀ top' : Blob α, top'.diff = top.diff →
        Backward (SetUp ⟨2, s, b⟩) top' true bottom
          = Backward (SetUp ⟨2, s, b⟩) top true bottom) := by
  have h21 : ¬ ((2 : α) = 1) := by
    intro h
    have h10 : (1 : α) = 0 := by
      have : (2 : α) - 1 = 1 - 1 := by rw [h]
      norm_num at this
    exact one_ne_zero h10
  refine ⟨?_, ?_⟩
  · intro i hi
    have key : (Backward (SetUp ⟨2, s, b⟩) top true bottom).diff i
        = top.diff i * (2 * s * s * bottom.data i + 2 * s * b) := by
      simp only [Backward, if_true, BackwardChain, SetUp, ne_eq, h21, or_false]
      by_cases hds : (2 : α) * s = 0
      · have h2 : (2 : α) = 0 := by
          rcases mul_eq_zero.mp hds with h | h
          · exact h
          · exact absurd h hs
        simp [hds, set, hi, h2]
      · simp only [hds, if_false, not_false_eq_true, if_true, mul, if_pos hi]
        rw [BackwardPower2_apply _ _ _ _ _ hi]
    refine ⟨?_, ?_⟩
    · rw [key]; simp only [SetUp]
    · rw [key]; ring
  · intro top' hdiff
    simp only [Backward, if_true, SetUp, h21, or_false, hdiff]

/-- Witness of C8: `y = x²` (`scale = 1`, `shift = 0`) at `x = 3` with upstream
gradient `1` gives `6`. -/
theorem backward_power_two_witness :
    (Backward (SetUp ⟨2, 1, 0⟩) (Blob.ofLists [] [1]) true
      (Blob.ofLists [(3 : ℚ)] [])).diff 0 = 6 := by
  have h := ((backward_power_two (1 : ℚ) 0 one_ne_zero (Blob.ofLists [3] [])
    (Blob.ofLists [] [1])).1 0 (by decide)).2
  rw [h]
  norm_num [Blob.ofLists]

/-- C9. With `shift = 0`, `power * scale ≠ 0` and `x i ≠ 0` in every cell, the
`shift == 0` branch followed by the chain-rule step gives, for every top data
`y` and upstream gradient `g`, the same bottom gradient as the steps of the
general branch run on the same data; and when `Backward` takes the `shift == 0`
branch (`power ≠ 1`, `power ≠ 2`) its result is that of the general steps. -/
theorem backward_shift0_eq_general (p s : α) (hds : p * s ≠ 0) (bottom top : Blob α)
    (hx : ∀ i, i < bottom.count → bottom.data i ≠ 0) (scratch scratch' : Nat → α) :
    ∀ i, i < bottom.count →
      BackwardChain (SetUp ⟨p, s, 0⟩) bottom.count top.diff
          (BackwardShift0 (SetUp ⟨p, s, 0⟩) bottom.count top.data bottom.data scratch) i
        = BackwardChain (SetUp ⟨p, s, 0⟩) bottom.count top.diff
          (BackwardGeneral (SetUp ⟨p, s, 0⟩) bottom.count top.data bottom.data scratch') i
      ∧ (p ≠ 1 → p ≠ 2 →
        (Backward (SetUp ⟨p, s, 0⟩) top true bottom).diff i
          = BackwardChain (SetUp ⟨p, s, 0⟩) bottom.count top.diff
            (BackwardGeneral (SetUp ⟨p, s, 0⟩) bottom.count top.data bottom.data scratch') i) := by
  intro i hi
  have hs0 : s ≠ 0 := right_ne_zero_of_mul hds
  have hxi := hx i hi
  have hds' : (SetUp ⟨p, s, 0⟩).diff_scale_ ≠ 0 := hds
  have key : ∀ d : Nat → α,
      BackwardChain (SetUp ⟨p, s, 0⟩) bottom.count top.diff
          (BackwardShift0 (SetUp ⟨p, s, 0⟩) bottom.count top.data bottom.data d) i
        = BackwardChain (SetUp ⟨p, s, 0⟩) bottom.count top.diff
          (BackwardGeneral (SetUp ⟨p, s, 0⟩) bottom.count top.data bottom.data scratch') i := by
    intro d
    simp only [BackwardChain, if_pos hds', mul, if_pos hi]
    rw [BackwardShift0_apply _ _ _ _ _ _ hi, BackwardGeneral_apply _ _ _ _ _ _ hi]
    simp only [SetUp, zero_add]
    field_simp
    ring
  refine ⟨key scratch, ?_⟩
  intro hp1 hp2
  rw [← key bottom.diff]
  have hds0 : ¬ (p * s = 0) := hds
  simp only [Backward, if_true, SetUp, hds0, hp1, hp2, or_self, if_false]

/-- Witness of C9: `power = 3, scale = 2, shift = 0` at `x = 5` with `y = 7` and
upstream gradient `11`. -/
theorem backward_shift0_eq_general_witness :
    BackwardChain (SetUp ⟨3, 2, 0⟩) 1 (fun _ => 11)
        (BackwardShift0 (SetUp ⟨3, 2, (0 : ℚ)⟩) 1 (fun _ => 7) (fun _ => 5) (fun _ => 0)) 0
      = BackwardChain (SetUp ⟨3, 2, 0⟩) 1 (fun _ => 11)
        (BackwardGeneral (SetUp ⟨3, 2, (0 : ℚ)⟩) 1 (fun _ => 7) (fun _ => 5) (fun _ => 1)) 0 :=
  (backward_shift0_eq_general (3 : ℚ) 2 (by norm_num)
    { num := 1, channels := 1, height := 1, width := 1, data := fun _ => 5, diff := fun _ => 0 }
    { num := 1, channels := 1, height := 1, width := 1, data := fun _ => 7, diff := fun _ => 11 }
    (by intro i _; norm_num) (fun _ => 0) (fun _ => 1) 0 (by decide)).1

end PowerLayer

namespace Im2colLayer

/-- What a successful `SetUp` went through and what it produced. -/
theorem SetUp_ok {conv_param : ConvolutionParameter} {bottom : Shape}
    {L : Im2colLayer} {out : Shape} (h : SetUp conv_param bottom = .ok (L, out)) :
    kernel_check_1 conv_param = true ∧ kernel_check_2 conv_param = true
    ∧ pad_check conv_param = true ∧ stride_check conv_param = true
    ∧ 0 < (resolve_kernel conv_param).1 ∧ 0 < (resolve_kernel conv_param).2
    ∧ (resolve_stride conv_param).1 ≠ 0 ∧ (resolve_stride conv_param).2 ≠ 0
    ∧ L = { kernel_h_ := (resolve_kernel conv_param).1
            kernel_w_ := (resolve_kernel conv_param).2
            stride_h_ := (resolve_stride conv_param).1
            stride_w_ := (resolve_stride conv_param).2
            channels_ := bottom.channels, height_ := bottom.height, width_ := bottom.width
            pad_h_ := (resolve_pad conv_param).1, pad_w_ := (resolve_pad conv_param).2 }
    ∧ out = { num := bottom.num
              channels := L.channels_ * L.kernel_h_ * L.kernel_w_
              height := (L.height_ + 2 * L.pad_h_ - L.kernel_h_).tdiv L.stride_h_ + 1
              width := (L.width_ + 2 * L.pad_w_ - L.kernel_w_).tdiv L.stride_w_ + 1 } := by
  unfold SetUp at h
  by_cases h1 : kernel_check_1 conv_param = true
  swap
  · simp [h1] at h
  by_cases h2 : kernel_check_2 conv_param = true
  swap
  · simp [h1, h2] at h
  by_cases h3 : pad_check conv_param = true
  swap
  · simp [h1, h2, h3] at h
  by_cases h4 : stride_check conv_param = true
  swap
  · simp [h1, h2, h3, h4] at h
  by_cases h5 : 0 < (resolve_kernel conv_param).1
  swap
  · simp [h1, h2, h3, h4, h5] at h
  by_cases h6 : 0 < (resolve_kernel conv_param).2
  swap
  · simp [h1, h2, h3, h4, h5, h6] at h
  by_cases h7 : (resolve_stride conv_param).1 = 0
  · simp [h1, h2, h3, h4, h5, h6, h7] at h
  by_cases h8 : (resolve_stride conv_param).2 = 0
  · simp [h1, h2, h3, h4, h5, h6, h7, h8] at h
  simp only [h1, h2, h3, h4, h5, h6, h7, h8, Bool.not_true, Bool.false_eq_true, if_false,
    gt_iff_lt, not_true_eq_false, or_self, Except.ok.injEq, Prod.mk.injEq] at h
  obtain ⟨hL, hout⟩ := h
  subst hL
  subst hout
  exact ⟨h1, h2, h3, h4, h5, h6, h7, h8, rfl, rfl⟩

/-- C3 (as amended). For every input shape and every parameter set that `SetUp`
accepts with both strides at least `1`, the output shape is
`(num, channels·kernelH·kernelW, (height + 2·padH − kernelH) / strideH + 1,
(width + 2·padW − kernelW) / strideW + 1)` where `/` truncates toward zero; the
quotient is the floor quotient whenever the kernel is no larger than the padded
input (`kernelH ≤ height + 2·padH`, resp. `kernelW ≤ width + 2·padW`). -/
theorem setup_shape_law (conv_param : ConvolutionParameter) (bottom : Shape)
    (L : Im2colLayer) (out : Shape) (hok : SetUp conv_param bottom = .ok (L, out))
    (hsh : 1 ≤ L.stride_h_) (hsw : 1 ≤ L.stride_w_) :
    out.num = bottom.num
    ∧ out.channels = bottom.channels * L.kernel_h_ * L.kernel_w_
    ∧ out.height = (bottom.height + 2 * L.pad_h_ - L.kernel_h_).tdiv L.stride_h_ + 1
    ∧ out.width = (bottom.width + 2 * L.pad_w_ - L.kernel_w_).tdiv L.stride_w_ + 1
    ∧ (L.kernel_h_ ≤ bottom.height + 2 * L.pad_h_ →
        out.height = (bottom.height + 2 * L.pad_h_ - L.kernel_h_).fdiv L.stride_h_ + 1)
    ∧ (L.kernel_w_ ≤ bottom.width + 2 * L.pad_w_ →
        out.width = (bottom.width + 2 * L.pad_w_ - L.kernel_w_).fdiv L.stride_w_ + 1) := by
  obtain ⟨-, -, -, -, -, -, -, -, hL, hout⟩ := SetUp_ok hok
  have hc : L.channels_ = bottom.channels := by rw [hL]
  have hh : L.height_ = bottom.height := by rw [hL]
  have hw : L.width_ = bottom.width := by rw [hL]
  rw [hc, hh, hw] at hout
  refine ⟨by rw [hout], by rw [hout], by rw [hout], by rw [hout], ?_, ?_⟩
  · intro hk
    rw [Int.fdiv_eq_tdiv (by omega) (by omega), hout]
  · intro hk
    rw [Int.fdiv_eq_tdiv (by omega) (by omega), hout]

/-- Witness of C3 (as amended): kernel `2`, stride `2`, no pad on a
`2 × 3 × 5 × 7` input gives `2 × 12 × 2 × 3`. -/
theorem setup_shape_law_witness :
    (⟨2, 12, 2, 3⟩ : Shape).height = ((5 : Int) + 2 * 0 - 2).fdiv 2 + 1
    ∧ (⟨2, 12, 2, 3⟩ : Shape).width = ((7 : Int) + 2 * 0 - 2).fdiv 2 + 1 :=
  have h := setup_shape_law { kernel_size_ := some 2, stride_ := some 2 } ⟨2, 3, 5, 7⟩
    ⟨2, 2, 2, 2, 3, 5, 7, 0, 0⟩ ⟨2, 12, 2, 3⟩ rfl (by decide) (by decide)
  ⟨h.2.2.2.2.1 (by decide), h.2.2.2.2.2 (by decide)⟩

/-- Counterexample to C3 as stated: kernel `3`, stride `4`, no pad on a
`1 × 1 × 1 × 1` input is accepted with both strides `≥ 1`, and `SetUp` sets the
output height and width to `1`, while the floor formula gives
`⌊(1 + 0 − 3) / 4⌋ + 1 = 0`. -/
theorem setup_shape_floor_counterexample :
    SetUp { kernel_size_ := some 3, stride_ := some 4 } ⟨1, 1, 1, 1⟩
        = .ok (⟨3, 3, 4, 4, 1, 1, 1, 0, 0⟩, ⟨1, 9, 1, 1⟩)
    ∧ ((1 : Int) + 2 * 0 - 3).fdiv 4 + 1 = 0
    ∧ (⟨1, 9, 1, 1⟩ : Shape)
        ≠ ⟨1, 1 * 3 * 3, ((1 : Int) + 2 * 0 - 3).fdiv 4 + 1, ((1 : Int) + 2 * 0 - 3).fdiv 4 + 1⟩ :=
  ⟨rfl, by decide, by decide⟩

/-- C4. `SetUp` fails with a configuration error when `kernel_size` is present
together with both `kernel_h` and `kernel_w`, and when `kernel_size` is absent
and `kernel_h`, `kernel_w` are not both present; in both cases it is the first
`CHECK` that fails. -/
theorem setup_rejects_kernel_forms (conv_param : ConvolutionParameter) (bottom : Shape) :
    ((conv_param.has_kernel_size = true ∧ conv_param.has_kernel_h = true
        ∧ conv_param.has_kernel_w = true) →
      SetUp conv_param bottom = .error .filter_size_not_both)
    ∧ ((conv_param.has_kernel_size = false
        ∧ ¬ (conv_param.has_kernel_h = true ∧ conv_param.has_kernel_w = true)) →
      SetUp conv_param bottom = .error .filter_size_not_both)
    ∧ SetUpError.filter_size_not_both.isConfigurationError = true := by
  refine ⟨?_, ?_, rfl⟩
  · rintro ⟨h1, h2, h3⟩
    simp [SetUp, kernel_check_1, h1, h2, h3]
  · rintro ⟨h1, h2⟩
    have h3 : (conv_param.has_kernel_h && conv_param.has_kernel_w) = false := by
      cases hh : conv_param.has_kernel_h <;> cases hw : conv_param.has_kernel_w <;>
        simp_all
    simp [SetUp, kernel_check_1, h1, h3]

/-- Witness of C4: all three kernel fields set, and none set. -/
theorem setup_rejects_kernel_forms_witness :
    SetUp { kernel_size_ := some 3, kernel_h_ := some 3, kernel_w_ := some 3 } ⟨1, 1, 4, 4⟩
        = .error .filter_size_not_both
    ∧ SetUp { } ⟨1, 1, 4, 4⟩ = .error .filter_size_not_both :=
  ⟨(setup_rejects_kernel_forms
      { kernel_size_ := some 3, kernel_h_ := some 3, kernel_w_ := some 3 } ⟨1, 1, 4, 4⟩).1
      ⟨rfl, rfl, rfl⟩,
   (setup_rejects_kernel_forms { } ⟨1, 1, 4, 4⟩).2.1 ⟨rfl, by decide⟩⟩

/-- C5. The pad `CHECK` of `SetUp` fails exactly when exactly one of `pad_h`,
`pad_w` is present or `pad` is present together with at least one of them;
it passes exactly when `pad` is absent and `pad_h`, `pad_w` are both present,
or `pad_h`, `pad_w` are both absent.  The stride `CHECK` obeys the same rule,
and `SetUp` fails with a configuration error whenever either `CHECK` fails. -/
theorem setup_pad_stride_presence (conv_param : ConvolutionParameter) (bottom : Shape) :
    (pad_check conv_param = false ↔
      (conv_param.has_pad_h ≠ conv_param.has_pad_w)
      ∨ (conv_param.has_pad = true
          ∧ (conv_param.has_pad_h = true ∨ conv_param.has_pad_w = true)))
    ∧ (pad_check conv_param = true ↔
      (conv_param.has_pad = false ∧ conv_param.has_pad_h = true ∧ conv_param.has_pad_w = true)
      ∨ (conv_param.has_pad_h = false ∧ conv_param.has_pad_w = false))
    ∧ (stride_check conv_param = false ↔
      (conv_param.has_stride_h ≠ conv_param.has_stride_w)
      ∨ (conv_param.has_stride = true
          ∧ (conv_param.has_stride_h = true ∨ conv_param.has_stride_w = true)))
    ∧ (stride_check conv_param = true ↔
      (conv_param.has_stride = false ∧ conv_param.has_stride_h = true
          ∧ conv_param.has_stride_w = true)
      ∨ (conv_param.has_stride_h = false ∧ conv_param.has_stride_w = false))
    ∧ ((pad_check conv_param = false ∨ stride_check conv_param = false) →
        ∃ e, SetUp conv_param bottom = .error e ∧ e.isConfigurationError = true) := by
  refine ⟨?_, ?_, ?_, ?_, ?_⟩
  · unfold pad_check
    cases conv_param.has_pad <;> cases conv_param.has_pad_h <;> cases conv_param.has_pad_w <;>
      decide
  · unfold pad_check
    cases conv_param.has_pad <;> cases conv_param.has_pad_h <;> cases conv_param.has_pad_w <;>
      decide
  · unfold stride_check
    cases conv_param.has_stride <;> cases conv_param.has_stride_h <;>
      cases conv_param.has_stride_w <;> decide
  · unfold stride_check
    cases conv_param.has_stride <;> cases conv_param.has_stride_h <;>
      cases conv_param.has_stride_w <;> decide
  · intro h
    unfold SetUp
    cases h1 : kernel_check_1 conv_param
    · exact ⟨.filter_size_not_both, by simp, rfl⟩
    cases h2 : kernel_check_2 conv_param
    · exact ⟨.filter_size_required, by simp, rfl⟩
    cases h3 : pad_check conv_param
    · exact ⟨.pad_form, by simp, rfl⟩
    cases h4 : stride_check conv_param
    · exact ⟨.stride_form, by simp, rfl⟩
    rw [h3, h4] at h
    simp at h

/-- Witness of C5: `pad_h` alone fails the pad `CHECK`; `stride` together with
`stride_h`, `stride_w` fails the stride `CHECK`. -/
theorem setup_pad_stride_presence_witness :
    pad_check { kernel_size_ := some 3, pad_h_ := some 1 } = false
    ∧ stride_check { stride_ := some 1, stride_h_ := some 1, stride_w_ := some 1 } = false :=
  ⟨(setup_pad_stride_presence { kernel_size_ := some 3, pad_h_ := some 1 } ⟨1, 1, 4, 4⟩).1.mpr
      (Or.inl (by decide)),
   (setup_pad_stride_presence { stride_ := some 1, stride_h_ := some 1, stride_w_ := some 1 }
      ⟨1, 1, 4, 4⟩).2.2.1.mpr (Or.inr ⟨rfl, Or.inl rfl⟩)⟩

/-- C6. When the four presence `CHECK`s pass, `SetUp` fails with a
configuration error whenever the resolved kernel height or width is `≤ 0`; and
after any successful `SetUp` the cached `kernel_h_` and `kernel_w_` are `> 0`. -/
theorem setup_kernel_positive (conv_param : ConvolutionParameter) (bottom : Shape) :
    (kernel_check_1 conv_param = true → kernel_check_2 conv_param = true →
      pad_check conv_param = true → stride_check conv_param = true →
      ((resolve_kernel conv_param).1 ≤ 0 ∨ (resolve_kernel conv_param).2 ≤ 0) →
      (SetUp conv_param bottom = .error .kernel_h_not_positive
        ∨ SetUp conv_param bottom = .error .kernel_w_not_positive))
    ∧ SetUpError.kernel_h_not_positive.isConfigurationError = true
    ∧ SetUpError.kernel_w_not_positive.isConfigurationError = true
    ∧ (∀ L out, SetUp conv_param bottom = .ok (L, out) →
        L.kernel_h_ > 0 ∧ L.kernel_w_ > 0) := by
  refine ⟨?_, rfl, rfl, ?_⟩
  · intro h1 h2 h3 h4 hk
    unfold SetUp
    by_cases h5 : 0 < (resolve_kernel conv_param).1
    · have h6 : ¬ 0 < (resolve_kernel conv_param).2 := by omega
      right
      simp [h1, h2, h3, h4, h5, h6]
    · left
      simp [h1, h2, h3, h4, h5]
  · intro L out hok
    obtain ⟨-, -, -, -, h5, h6, -, -, hL, -⟩ := SetUp_ok hok
    rw [hL]
    exact ⟨h5, h6⟩

/-- Witness of C6: `kernel_size = 0` is rejected, `kernel_size = 3` gives cached
extents `3 > 0`. -/
theorem setup_kernel_positive_witness :
    (SetUp { kernel_size_ := some 0 } ⟨1, 1, 4, 4⟩ = .error .kernel_h_not_positive
      ∨ SetUp { kernel_size_ := some 0 } ⟨1, 1, 4, 4⟩ = .error .kernel_w_not_positive)
    ∧ ((3 : Int) > 0 ∧ (3 : Int) > 0) :=
  ⟨(setup_kernel_positive { kernel_size_ := some 0 } ⟨1, 1, 4, 4⟩).1 rfl rfl rfl rfl
      (Or.inl (by decide)),
   (setup_kernel_positive { kernel_size_ := some 3 } ⟨1, 1, 4, 4⟩).2.2.2
      ⟨3, 3, 1, 1, 1, 4, 4, 0, 0⟩ ⟨1, 9, 2, 2⟩ rfl⟩

end Im2colLayer

end Caffe

namespace Caffe

/-! ## Counted loops over buffers -/

section Loops

variable {α : Type}

/-- A loop none of whose iterations changes cell `j` leaves cell `j` as it was. -/
theorem for_loop_untouched (n : Int) (body : (Nat → α) → Nat → (Nat → α)) (j : Nat)
    (h : ∀ d i, i < n.toNat → body d i j = d j) (d0 : Nat → α) :
    for_loop n body d0 j = d0 j := by
  unfold for_loop
  generalize n.toNat = m at h
  induction m with
  | zero => simp
  | succ m ih =>
    rw [List.range_succ, List.foldl_append, List.foldl_cons, List.foldl_nil,
      h _ m (Nat.lt_succ_self m)]
    exact ih (fun d i hi => h d i (Nat.lt_succ_of_lt hi))

/-- A loop in which iteration `i0` sets cell `j` to `V`, whatever the buffer,
and no other iteration changes cell `j`, ends with `V` in cell `j`. -/
theorem for_loop_hit (n : Int) (body : (Nat → α) → Nat → (Nat → α)) (j : Nat) (i0 : Nat)
    (V : α) (hi0 : i0 < n.toNat) (h1 : ∀ d, body d i0 j = V)
    (h2 : ∀ d i, i < n.toNat → i ≠ i0 → body d i j = d j) (d0 : Nat → α) :
    for_loop n body d0 j = V := by
  unfold for_loop
  generalize n.toNat = m at hi0 h2
  induction m with
  | zero => omega
  | succ m ih =>
    rw [List.range_succ, List.foldl_append, List.foldl_cons, List.foldl_nil]
    by_cases hm : m = i0
    · subst hm; exact h1 _
    · rw [h2 _ m (Nat.lt_succ_self m) hm]
      exact ih (by omega) (fun d i hi hne => h2 d i (Nat.lt_succ_of_lt hi) hne)

/-- A loop whose iteration `i` adds `a i` to cell `j` adds the sum of the
`a i` to cell `j`. -/
theorem for_loop_add [AddCommMonoid α] (n : Int) (body : (Nat → α) → Nat → (Nat → α))
    (j : Nat) (a : Nat → α) (h : ∀ d i, i < n.toNat → body d i j = d j + a i)
    (d0 : Nat → α) :
    for_loop n body d0 j = d0 j + ∑ i in Finset.range n.toNat, a i := by
  unfold for_loop
  generalize n.toNat = m at h
  induction m with
  | zero => simp
  | succ m ih =>
    rw [List.range_succ, List.foldl_append, List.foldl_cons, List.foldl_nil,
      h _ m (Nat.lt_succ_self m), ih (fun d i hi => h d i (Nat.lt_succ_of_lt hi)),
      Finset.sum_range_succ, add_assoc]

/-- A sum over `n * m` consecutive cells, block by block. -/
theorem sum_range_mul [AddCommMonoid α] (n m : Nat) (F : Nat → α) :
    ∑ k in Finset.range (n * m), F k
      = ∑ i in Finset.range n, ∑ j in Finset.range m, F (i * m + j) := by
  induction n with
  | zero => simp
  | succ n ih =>
    rw [Nat.succ_mul, Finset.sum_range_add, ih, Finset.sum_range_succ]

/-- Cells of different rows of a row-major block are different cells. -/
theorem row_major_inj {m a a0 w w0 : Nat} (hw : w < m) (hw0 : w0 < m)
    (h : a * m + w = a0 * m + w0) : a = a0 ∧ w = w0 := by
  have h1 : (a * m + w) / m = a := by
    rw [Nat.add_comm, Nat.add_mul_div_right _ _ (by omega), Nat.div_eq_of_lt hw, Nat.zero_add]
  have h2 : (a0 * m + w0) / m = a0 := by
    rw [Nat.add_comm, Nat.add_mul_div_right _ _ (by omega), Nat.div_eq_of_lt hw0, Nat.zero_add]
  have ha : a = a0 := by rw [← h1, ← h2, h]
  subst ha
  exact ⟨rfl, by omega⟩

/-- A cell of a row-major block lies inside the block. -/
theorem row_major_lt {n m a w : Nat} (ha : a < n) (hw : w < m) : a * m + w < n * m := by
  have : (a + 1) * m ≤ n * m := Nat.mul_le_mul_right m ha
  rw [Nat.add_mul, Nat.one_mul] at this
  omega

end Loops

end Caffe

namespace Caffe

namespace Window

/-- Inside the loop bounds the column index is the row-major index. -/
theorem col_index_eq (g : Window) (c : Nat) {h w : Nat} (hh : h < g.height_col.toNat)
    (hw : w < g.width_col.toNat) :
    g.col_index c h w = (c * g.height_col.toNat + h) * g.width_col.toNat + w := by
  have hH : g.height_col = (g.height_col.toNat : Int) :=
    (Int.toNat_of_nonneg (by omega)).symm
  have hW : g.width_col = (g.width_col.toNat : Int) :=
    (Int.toNat_of_nonneg (by omega)).symm
  unfold col_index
  generalize g.height_col.toNat = Hc at hH
  generalize g.width_col.toNat = Wc at hW
  rw [hH, hW]
  have : ((c : Int) * Hc + h) * Wc + w = (((c * Hc + h) * Wc + w : Nat) : Int) := by
    push_cast; ring
  rw [this, Int.toNat_natCast]

/-- Inside the loop bounds the column index lies in the column block. -/
theorem col_index_lt (g : Window) {c h w : Nat} (hc : c < g.channels_col.toNat)
    (hh : h < g.height_col.toNat) (hw : w < g.width_col.toNat) :
    g.col_index c h w < g.channels_col.toNat * g.height_col.toNat * g.width_col.toNat := by
  rw [col_index_eq g c hh hw]
  exact row_major_lt (row_major_lt hc hh) hw

/-- The image channel of a column channel is a channel of the image. -/
theorem c_im_bounds (g : Window) (hkh : 0 < g.kernel_h) (hkw : 0 < g.kernel_w) {c : Nat}
    (hc : c < g.channels_col.toNat) : 0 ≤ g.c_im c ∧ g.c_im c < g.channels := by
  have hc' : (c : Int) < g.channels * g.kernel_h * g.kernel_w := by
    unfold channels_col at hc; omega
  have h0 : (0 : Int) ≤ c := Int.natCast_nonneg c
  unfold c_im
  rw [Int.tdiv_eq_ediv h0 hkh.le]
  have h1 : 0 ≤ (c : Int) / g.kernel_h := Int.ediv_nonneg h0 hkh.le
  rw [Int.tdiv_eq_ediv h1 hkw.le]
  refine ⟨Int.ediv_nonneg h1 hkw.le, ?_⟩
  apply Int.ediv_lt_of_lt_mul hkw
  apply Int.ediv_lt_of_lt_mul hkh
  calc (c : Int) < g.channels * g.kernel_h * g.kernel_w := hc'
    _ = g.channels * g.kernel_w * g.kernel_h := by ring

/-- A cell read by a column cell inside the input bounds is a cell of the
image block. -/
theorem im_index_lt (g : Window) (C H W : Nat) (hC : g.channels = C) (hH : g.height = H)
    (hW : g.width = W) (hkh : 0 < g.kernel_h) (hkw : 0 < g.kernel_w) {c h w : Nat}
    (hc : c < g.channels_col.toNat) (hin : g.inside c h w) :
    g.im_index c h w < C * H * W := by
  obtain ⟨hc0, hc1⟩ := c_im_bounds g hkh hkw hc
  obtain ⟨hh0, hh1, hw0, hw1⟩ := hin
  unfold im_index
  rw [hC] at hc1
  rw [hH] at hh1 ⊢
  rw [hW] at hw1 ⊢
  generalize g.c_im c = ci at hc0 hc1
  generalize g.h_pad c h = hp at hh0 hh1
  generalize g.w_pad c w = wp at hw0 hw1
  obtain ⟨ci, rfl⟩ := Int.eq_ofNat_of_zero_le hc0
  obtain ⟨hp, rfl⟩ := Int.eq_ofNat_of_zero_le hh0
  obtain ⟨wp, rfl⟩ := Int.eq_ofNat_of_zero_le hw0
  have : ((ci : Int) * H + hp) * W + wp = (((ci * H + hp) * W + wp : Nat) : Int) := by
    push_cast; ring
  rw [this, Int.toNat_natCast]
  exact row_major_lt (row_major_lt (by exact_mod_cast hc1) (by exact_mod_cast hh1))
    (by exact_mod_cast hw1)

end Window

/-- The value `unfold` stores in column cell `(c, h, w)`. -/
theorem im2col_body_eq {α : Type} [Zero α] (g : Window) (data_im data_col : Nat → α)
    (c h w : Nat) :
    (if g.inside c h w then
        Function.update data_col (g.col_index c h w) (data_im (g.im_index c h w))
      else Function.update data_col (g.col_index c h w) 0)
      = Function.update data_col (g.col_index c h w)
          (if g.inside c h w then data_im (g.im_index c h w) else 0) := by
  split <;> rfl

/-- The routine `im2col` stores, in the column cell `(c, h, w)`, the image cell it reads
or zero. -/
theorem im2col_hit {α : Type} [Zero α] (data_im : Nat → α)
    (channels height width kernel_h kernel_w pad_h pad_w stride_h stride_w : Int)
    (data_col : Nat → α) (g : Window)
    (hg : g = ⟨channels, height, width, kernel_h, kernel_w, pad_h, pad_w, stride_h, stride_w⟩)
    {c h w : Nat} (hc : c < g.channels_col.toNat) (hh : h < g.height_col.toNat)
    (hw : w < g.width_col.toNat) :
    im2col data_im channels height width kernel_h kernel_w pad_h pad_w stride_h stride_w
        data_col ((c * g.height_col.toNat + h) * g.width_col.toNat + w)
      = if g.inside c h w then data_im (g.im_index c h w) else 0 := by
  subst hg
  unfold im2col
  simp only [im2col_body_eq]
  set g : Window :=
    ⟨channels, height, width, kernel_h, kernel_w, pad_h, pad_w, stride_h, stride_w⟩ with hg
  apply for_loop_hit _ _ _ c _ hc
  · intro d
    apply for_loop_hit _ _ _ h _ hh
    · intro d
      apply for_loop_hit _ _ _ w _ hw
      · intro d
        rw [g.col_index_eq c hh hw, Function.update_same]
      · intro d w' hw' hne
        rw [g.col_index_eq c hh hw', Function.update_noteq]
        intro heq
        exact hne (row_major_inj hw hw' heq).2.symm
    · intro d h' hh' hne
      apply for_loop_untouched
      intro d w' hw'
      rw [g.col_index_eq c hh' hw', Function.update_noteq]
      intro heq
      have := (row_major_inj hw hw' heq).1
      omega
  · intro d c' hc' hne
    apply for_loop_untouched
    intro d h' hh'
    apply for_loop_untouched
    intro d w' hw'
    rw [g.col_index_eq c' hh' hw', Function.update_noteq]
    intro heq
    have h1 := (row_major_inj hw hw' heq).1
    have h2 := (row_major_inj hh hh' h1).1
    exact hne h2.symm

/-- The routine `im2col` changes no cell beyond the column block. -/
theorem im2col_untouched {α : Type} [Zero α] (data_im : Nat → α)
    (channels height width kernel_h kernel_w pad_h pad_w stride_h stride_w : Int)
    (data_col : Nat → α) (g : Window)
    (hg : g = ⟨channels, height, width, kernel_h, kernel_w, pad_h, pad_w, stride_h, stride_w⟩)
    {k : Nat} (hk : g.channels_col.toNat * g.height_col.toNat * g.width_col.toNat ≤ k) :
    im2col data_im channels height width kernel_h kernel_w pad_h pad_w stride_h stride_w
        data_col k = data_col k := by
  subst hg
  unfold im2col
  simp only [im2col_body_eq]
  set g : Window :=
    ⟨channels, height, width, kernel_h, kernel_w, pad_h, pad_w, stride_h, stride_w⟩ with hg
  apply for_loop_untouched
  intro d c hc
  apply for_loop_untouched
  intro d h hh
  apply for_loop_untouched
  intro d w hw
  rw [Function.update_noteq]
  have := g.col_index_lt hc hh hw
  omega

/-- The routine `col2im` clears the image block and adds to an image cell every column cell
that reads it. -/
theorem col2im_apply {α : Type} [AddCommMonoid α] (data_col : Nat → α)
    (channels height width kernel_h kernel_w pad_h pad_w stride_h stride_w : Int)
    (data_im : Nat → α) (g : Window)
    (hg : g = ⟨channels, height, width, kernel_h, kernel_w, pad_h, pad_w, stride_h, stride_w⟩)
    (j : Nat) :
    col2im data_col channels height width kernel_h kernel_w pad_h pad_w stride_h stride_w
        data_im j
      = (if j < (height * width * channels).toNat then 0 else data_im j)
        + ∑ c in Finset.range g.channels_col.toNat, ∑ h in Finset.range g.height_col.toNat,
            ∑ w in Finset.range g.width_col.toNat,
              if g.inside c h w ∧ g.im_index c h w = j then data_col (g.col_index c h w)
              else 0 := by
  subst hg
  unfold col2im
  set g : Window :=
    ⟨channels, height, width, kernel_h, kernel_w, pad_h, pad_w, stride_h, stride_w⟩ with hg
  rw [for_loop_add _ _ j
    (fun c => ∑ h in Finset.range g.height_col.toNat, ∑ w in Finset.range g.width_col.toNat,
      if g.inside c h w ∧ g.im_index c h w = j then data_col (g.col_index c h w) else 0)]
  · rfl
  · intro d c _
    apply for_loop_add
    intro d h _
    apply for_loop_add
    intro d w _
    by_cases hin : g.inside c h w
    · rw [if_pos hin]
      by_cases hj : g.im_index c h w = j
      · rw [if_pos ⟨hin, hj⟩, ← hj, Function.update_same]
      · rw [if_neg (fun hh => hj hh.2), Function.update_noteq (Ne.symm hj), add_zero]
    · rw [if_neg hin, if_neg (fun hh => hin hh.1), add_zero]

end Caffe

namespace Caffe

theorem Blob.offset_eq {α : Type} (b : Blob α) (n : Nat) :
    b.offset n = n * (b.channels * b.height * b.width) := by
  unfold Blob.offset; ring

theorem Blob.count_eq {α : Type} (b : Blob α) :
    b.count = b.num * (b.channels * b.height * b.width) := by
  unfold Blob.count; ring

/-- A cell of block `n` lies beyond block `n'` when it is reached from the start
of block `n' ≠ n`. -/
theorem block_sep {M n n' k : Nat} (hk : k < M) (hne : n' ≠ n) (hle : n' * M ≤ n * M + k) :
    M ≤ n * M + k - n' * M := by
  have hlt : n' < n := by
    by_contra hcon
    have h1 : n + 1 ≤ n' := by omega
    have h2 : (n + 1) * M ≤ n' * M := Nat.mul_le_mul_right M h1
    rw [Nat.add_mul, Nat.one_mul] at h2
    omega
  have h3 : (n' + 1) * M ≤ n * M := Nat.mul_le_mul_right M hlt
  rw [Nat.add_mul, Nat.one_mul] at h3
  omega

namespace Im2colLayer

variable {α : Type} [Field α]

/-- The routine `Forward` stores, in cell `(n, c, h, w)` of the top data, the bottom cell
that the window reads there, or zero. -/
theorem Forward_apply (L : Im2colLayer) (bottom top : Blob α)
    (hch : L.window.channels_col = top.channels) (hht : L.window.height_col = top.height)
    (hwd : L.window.width_col = top.width) {n c h w : Nat} (hn : n < bottom.num)
    (hc : c < top.channels) (hh : h < top.height) (hw : w < top.width) :
    (Forward L bottom top).1.data (top.offset n + ((c * top.height + h) * top.width + w))
      = if L.window.inside c h w then
          bottom.data (bottom.offset n + L.window.im_index c h w)
        else 0 := by
  have hch' : L.window.channels_col.toNat = top.channels := by rw [hch, Int.toNat_natCast]
  have hht' : L.window.height_col.toNat = top.height := by rw [hht, Int.toNat_natCast]
  have hwd' : L.window.width_col.toNat = top.width := by rw [hwd, Int.toNat_natCast]
  have hkM : (c * top.height + h) * top.width + w < top.channels * top.height * top.width :=
    row_major_lt (row_major_lt hc hh) hw
  unfold Forward
  simp only
  apply for_loop_hit _ _ _ n _ (by rw [Int.toNat_natCast]; exact hn)
  · intro d
    unfold ptr_store
    rw [if_pos (Nat.le_add_right _ _), Nat.add_sub_cancel_left]
    have := im2col_hit (ptr_add bottom.data (bottom.offset n)) L.channels_ L.height_ L.width_
      L.kernel_h_ L.kernel_w_ L.pad_h_ L.pad_w_ L.stride_h_ L.stride_w_
      (ptr_add d (top.offset n)) L.window rfl (c := c) (h := h) (w := w)
      (by rw [hch']; exact hc) (by rw [hht']; exact hh) (by rw [hwd']; exact hw)
    rw [hht', hwd'] at this
    rw [this]
    rfl
  · intro d n' _ hne
    unfold ptr_store
    rw [Blob.offset_eq, Blob.offset_eq]
    split
    · rename_i hle
      have hsep := block_sep hkM hne hle
      rw [im2col_untouched _ _ _ _ _ _ _ _ _ _ _ L.window rfl
        (by rw [hch', hht', hwd']; exact hsep)]
      unfold ptr_add
      rw [Nat.add_sub_cancel' hle]
    · rfl

/-- The routine `Backward` leaves, in cell `j` of item `n` of the bottom gradient, the sum
of the top gradient over the column cells that read that cell. -/
theorem Backward_apply (L : Im2colLayer) (bottom top : Blob α) (pd : List Bool)
    (hC : L.channels_ = bottom.channels) (hH : L.height_ = bottom.height)
    (hW : L.width_ = bottom.width) (hkh : 0 < L.kernel_h_) (hkw : 0 < L.kernel_w_)
    (hch : L.window.channels_col = top.channels) (hht : L.window.height_col = top.height)
    (hwd : L.window.width_col = top.width) {n j : Nat} (hn : n < top.num)
    (hj : j < bottom.channels * bottom.height * bottom.width) :
    (Backward L top pd bottom).diff (bottom.offset n + j)
      = ∑ c in Finset.range top.channels, ∑ h in Finset.range top.height,
          ∑ w in Finset.range top.width,
            if L.window.inside c h w ∧ L.window.im_index c h w = j then
              top.diff (top.offset n + ((c * top.height + h) * top.width + w))
            else 0 := by
  have hch' : L.window.channels_col.toNat = top.channels := by rw [hch, Int.toNat_natCast]
  have hht' : L.window.height_col.toNat = top.height := by rw [hht, Int.toNat_natCast]
  have hwd' : L.window.width_col.toNat = top.width := by rw [hwd, Int.toNat_natCast]
  have hK : (L.height_ * L.width_ * L.channels_).toNat
      = bottom.channels * bottom.height * bottom.width := by
    rw [hC, hH, hW]
    have : (bottom.height : Int) * bottom.width * bottom.channels
        = ((bottom.channels * bottom.height * bottom.width : Nat) : Int) := by
      push_cast; ring
    rw [this, Int.toNat_natCast]
  have hidx : ∀ c h w, c < top.channels → L.window.inside c h w →
      L.window.im_index c h w < bottom.channels * bottom.height * bottom.width := by
    intro c h w hc hin
    exact L.window.im_index_lt _ _ _ hC hH hW hkh hkw (by rw [hch']; exact hc) hin
  unfold Backward
  simp only
  apply for_loop_hit _ _ _ n _ (by rw [Int.toNat_natCast]; exact hn)
  · intro d
    unfold ptr_store
    rw [if_pos (Nat.le_add_right _ _), Nat.add_sub_cancel_left,
      col2im_apply _ _ _ _ _ _ _ _ _ _ _ L.window rfl, hK, if_pos hj, zero_add, hch', hht',
      hwd']
    refine Finset.sum_congr rfl (fun c _ => Finset.sum_congr rfl (fun h hh =>
      Finset.sum_congr rfl (fun w hw => ?_)))
    rw [L.window.col_index_eq c (by rw [hht']; exact Finset.mem_range.mp hh)
      (by rw [hwd']; exact Finset.mem_range.mp hw), hht', hwd']
    rfl
  · intro d n' _ hne
    unfold ptr_store
    rw [Blob.offset_eq, Blob.offset_eq]
    split
    · rename_i hle
      have hsep := block_sep hj hne hle
      rw [col2im_apply _ _ _ _ _ _ _ _ _ _ _ L.window rfl, hK, if_neg (by omega), hch']
      rw [Finset.sum_eq_zero, add_zero]
      · unfold ptr_add
        rw [Nat.add_sub_cancel' hle]
      · intro c hc
        refine Finset.sum_eq_zero (fun h _ => Finset.sum_eq_zero (fun w _ => ?_))
        rw [if_neg]
        rintro ⟨hin, heq⟩
        have := hidx c h w (Finset.mem_range.mp hc) hin
        omega
    · rfl

end Im2colLayer

end Caffe

namespace Caffe

namespace Im2colLayer

variable {α : Type} [Field α]

/-- C10. Adjoint identity: for every configuration `SetUp` accepts, every
bottom blob (data `x`) and every top blob of the output shape (gradient `g`),
the dot product of the top data written by `Forward` with `g` equals the dot
product of `x` with the bottom gradient written by `Backward`, over all items. -/
theorem forward_backward_adjoint (conv_param : ConvolutionParameter) (bottom top : Blob α)
    (L : Im2colLayer) (out : Shape) (hok : SetUp conv_param bottom.shape = .ok (L, out))
    (htop : top.shape = out) (propagate_down : List Bool) :
    dot top.count (Forward L bottom top).1.data top.diff
      = dot bottom.count bottom.data (Backward L top propagate_down bottom).diff := by
  obtain ⟨-, -, -, -, hkh0, hkw0, -, -, hL, hout⟩ := SetUp_ok hok
  have hC : L.channels_ = bottom.channels := by rw [hL]; rfl
  have hH : L.height_ = bottom.height := by rw [hL]; rfl
  have hW : L.width_ = bottom.width := by rw [hL]; rfl
  have hkh : 0 < L.kernel_h_ := by rw [hL]; exact hkh0
  have hkw : 0 < L.kernel_w_ := by rw [hL]; exact hkw0
  rw [hout] at htop
  have hnum : top.num = bottom.num := by
    have := congrArg Shape.num htop
    simpa [Blob.shape] using this
  have hch : L.window.channels_col = top.channels := (congrArg Shape.channels htop).symm
  have hht : L.window.height_col = top.height := (congrArg Shape.height htop).symm
  have hwd : L.window.width_col = top.width := (congrArg Shape.width htop).symm
  have hch' : L.window.channels_col.toNat = top.channels := by rw [hch, Int.toNat_natCast]
  -- both sides are the same sum over items and window cells
  have hlhs : dot top.count (Forward L bottom top).1.data top.diff
      = ∑ n in Finset.range bottom.num, ∑ c in Finset.range top.channels,
          ∑ h in Finset.range top.height, ∑ w in Finset.range top.width,
            if L.window.inside c h w then
              bottom.data (bottom.offset n + L.window.im_index c h w)
                * top.diff (top.offset n + ((c * top.height + h) * top.width + w))
            else 0 := by
    unfold dot
    rw [Blob.count_eq, sum_range_mul, hnum]
    refine Finset.sum_congr rfl (fun n hn => ?_)
    rw [sum_range_mul, sum_range_mul]
    refine Finset.sum_congr rfl (fun c hc => Finset.sum_congr rfl (fun h hh =>
      Finset.sum_congr rfl (fun w hw => ?_)))
    rw [← Blob.offset_eq,
      Forward_apply L bottom top hch hht hwd (Finset.mem_range.mp hn) (Finset.mem_range.mp hc)
        (Finset.mem_range.mp hh) (Finset.mem_range.mp hw)]
    split
    · rfl
    · rw [zero_mul]
  have hrhs : dot bottom.count bottom.data (Backward L top propagate_down bottom).diff
      = ∑ n in Finset.range bottom.num, ∑ c in Finset.range top.channels,
          ∑ h in Finset.range top.height, ∑ w in Finset.range top.width,
            if L.window.inside c h w then
              bottom.data (bottom.offset n + L.window.im_index c h w)
                * top.diff (top.offset n + ((c * top.height + h) * top.width + w))
            else 0 := by
    unfold dot
    rw [Blob.count_eq, sum_range_mul]
    refine Finset.sum_congr rfl (fun n hn => ?_)
    have hstep : ∀ j ∈ Finset.range (bottom.channels * bottom.height * bottom.width),
        bottom.data (n * (bottom.channels * bottom.height * bottom.width) + j)
          * (Backward L top propagate_down bottom).diff
              (n * (bottom.channels * bottom.height * bottom.width) + j)
        = ∑ c in Finset.range top.channels, ∑ h in Finset.range top.height,
            ∑ w in Finset.range top.width,
              if L.window.inside c h w ∧ L.window.im_index c h w = j then
                bottom.data (bottom.offset n + j)
                  * top.diff (top.offset n + ((c * top.height + h) * top.width + w))
              else 0 := by
      intro j hj
      rw [← Blob.offset_eq,
        Backward_apply L bottom top propagate_down hC hH hW hkh hkw hch hht hwd
          (by rw [hnum]; exact Finset.mem_range.mp hn) (Finset.mem_range.mp hj)]
      simp only [Finset.mul_sum, mul_ite, mul_zero]
    rw [Finset.sum_congr rfl hstep, Finset.sum_comm]
    refine Finset.sum_congr rfl (fun c hc => ?_)
    rw [Finset.sum_comm]
    refine Finset.sum_congr rfl (fun h _ => ?_)
    rw [Finset.sum_comm]
    refine Finset.sum_congr rfl (fun w _ => ?_)
    by_cases hin : L.window.inside c h w
    · have hidx := L.window.im_index_lt _ _ _ hC hH hW hkh hkw
        (by rw [hch']; exact Finset.mem_range.mp hc) hin
      simp only [hin, true_and, if_true]
      rw [Finset.sum_ite_eq, if_pos (Finset.mem_range.mpr hidx)]
    · simp only [hin, false_and, if_false, Finset.sum_const_zero]
  rw [hlhs, hrhs]

end Im2colLayer

end Caffe

namespace Caffe

namespace Im2colLayer

/-- Witness of C10: kernel `2`, pad `1`, stride `1` on one `1 × 2 × 2` item
(output `4 × 3 × 3`), with `x = (1, 2, 3, 4)` and `g k = k + 1`. -/
theorem forward_backward_adjoint_witness :
    dot 36
        (Forward ⟨2, 2, 1, 1, 1, 2, 2, 1, 1⟩
          { num := 1, channels := 1, height := 2, width := 2,
            data := fun i => (i : ℚ) + 1, diff := fun _ => 0 }
          { num := 1, channels := 4, height := 3, width := 3,
            data := fun _ => 0, diff := fun k => (k : ℚ) + 1 }).1.data
        (fun k => (k : ℚ) + 1)
      = dot 4 (fun i => (i : ℚ) + 1)
        (Backward ⟨2, 2, 1, 1, 1, 2, 2, 1, 1⟩
          { num := 1, channels := 4, height := 3, width := 3,
            data := fun _ => 0, diff := fun k => (k : ℚ) + 1 } []
          { num := 1, channels := 1, height := 2, width := 2,
            data := fun i => (i : ℚ) + 1, diff := fun _ => 0 }).diff :=
  forward_backward_adjoint { kernel_size_ := some 2, pad_ := some 1 }
    { num := 1, channels := 1, height := 2, width := 2,
      data := fun i => (i : ℚ) + 1, diff := fun _ => 0 }
    { num := 1, channels := 4, height := 3, width := 3,
      data := fun _ => 0, diff := fun k => (k : ℚ) + 1 }
    ⟨2, 2, 1, 1, 1, 2, 2, 1, 1⟩ ⟨1, 4, 3, 3⟩ rfl rfl []

end Im2colLayer

end Caffe

namespace Caffe

namespace PowerLayer

variable {α : Type} [Field α] [DecidableEq α]

/-- The cells that `Backward` writes when propagation is requested: the
constant `diff_scale_` when it is zero, otherwise the top gradient times the
derivative computed by the branch taken. -/
theorem Backward_diff_lt (L : PowerLayer α) (top bottom : Blob α) (i : Nat)
    (hi : i < bottom.count) :
    (Backward L top true bottom).diff i
      = if L.diff_scale_ = 0 then L.diff_scale_
        else top.diff i *
          (if L.power_ = 1 then L.diff_scale_
           else if L.power_ = 2 then BackwardPower2 L bottom.count bottom.data bottom.diff i
           else if L.shift_ = 0 then
             BackwardShift0 L bottom.count top.data bottom.data bottom.diff i
           else BackwardGeneral L bottom.count top.data bottom.data bottom.diff i) := by
  simp only [Backward, if_true, BackwardChain, ne_eq]
  by_cases hds : L.diff_scale_ = 0
  · simp [hds, set, hi]
  · simp only [hds, false_or, not_false_eq_true, if_true, if_false, mul, if_pos hi]
    by_cases hp1 : L.power_ = 1
    · simp [hp1, set, hi]
    · simp only [hp1, if_false]
      by_cases hp2 : L.power_ = 2
      · simp only [hp2, if_true]
      · simp only [hp2, if_false]
        by_cases hb : L.shift_ = 0
        · simp only [hb, if_true]
        · simp only [hb, if_false]

/-- C11. When `power * scale = 0` and propagation is requested, every cell of
the bottom gradient below the count equals `diff_scale_`, which is `0`; the
result is the same for every top blob (cached output and upstream gradient):
the multiplication by the upstream gradient is not applied. -/
theorem backward_diff_scale_zero (param : PowerParameter α)
    (hds : param.power * param.scale = 0) (top bottom : Blob α) :
    (∀ i, i < bottom.count →
      (Backward (SetUp param) top true bottom).diff i = (SetUp param).diff_scale_
      ∧ (Backward (SetUp param) top true bottom).diff i = 0)
    ∧ (∀ top' : Blob α,
        Backward (SetUp param) top' true bottom = Backward (SetUp param) top true bottom) := by
  have hds' : (SetUp param).diff_scale_ = 0 := hds
  refine ⟨?_, ?_⟩
  · intro i hi
    rw [Backward_diff_lt _ _ _ _ hi, if_pos hds']
    exact ⟨rfl, hds'⟩
  · intro top'
    simp only [Backward, if_true, BackwardChain, hds', true_or, ne_eq, not_true_eq_false,
      if_false]

/-- Witness of C11: `power = 0, scale = 3, shift = 1` with upstream gradient `5`
leaves `0` in the bottom gradient. -/
theorem backward_diff_scale_zero_witness :
    (Backward (SetUp ⟨0, 3, 1⟩) (Blob.ofLists [7] [5]) true
      (Blob.ofLists [(2 : ℚ)] [9])).diff 0 = 0 :=
  ((backward_diff_scale_zero (⟨0, 3, 1⟩ : PowerParameter ℚ) (by norm_num)
    (Blob.ofLists [7] [5]) (Blob.ofLists [2] [9])).1 0 (by decide)).2

/-- C12. When propagation is not requested (`propagate_down[0]` is false),
`Backward` returns the bottom blob as it was (shape, data and gradient
buffer), for every layer and every content of the blobs. -/
theorem backward_no_propagation (L : PowerLayer α) (top bottom : Blob α) :
    Backward L top false bottom = bottom := by
  simp only [Backward, Bool.false_eq_true, if_false]

/-- C15 (as amended). With propagation requested, `Backward` multiplies the
derivative computed by the branch taken by the upstream gradient whenever
`diff_scale_ ≠ 0`, the constant branch `power = 1` included, where the cell
holds `g i * diff_scale_`; only when `diff_scale_ = 0` is the multiplication
skipped, and then every cell holds the constant `diff_scale_` whatever the
upstream gradient is. -/
theorem backward_chain_step (param : PowerParameter α) (top bottom : Blob α) (i : Nat)
    (hi : i < bottom.count) :
    ((SetUp param).diff_scale_ = 0 →
      ∀ top' : Blob α,
        (Backward (SetUp param) top' true bottom).diff i = (SetUp param).diff_scale_)
    ∧ ((SetUp param).diff_scale_ ≠ 0 → param.power = 1 →
        (Backward (SetUp param) top true bottom).diff i
          = top.diff i * (SetUp param).diff_scale_)
    ∧ ((SetUp param).diff_scale_ ≠ 0 → param.power ≠ 1 → param.power = 2 →
        (Backward (SetUp param) top true bottom).diff i
          = top.diff i * BackwardPower2 (SetUp param) bottom.count bottom.data bottom.diff i)
    ∧ ((SetUp param).diff_scale_ ≠ 0 → param.power ≠ 1 → param.power ≠ 2 →
        param.shift = 0 →
        (Backward (SetUp param) top true bottom).diff i
          = top.diff i
            * BackwardShift0 (SetUp param) bottom.count top.data bottom.data bottom.diff i)
    ∧ ((SetUp param).diff_scale_ ≠ 0 → param.power ≠ 1 → param.power ≠ 2 →
        param.shift ≠ 0 →
        (Backward (SetUp param) top true bottom).diff i
          = top.diff i
            * BackwardGeneral (SetUp param) bottom.count top.data bottom.data bottom.diff i) := by
  have hp : (SetUp param).power_ = param.power := rfl
  have hb : (SetUp param).shift_ = param.shift := rfl
  refine ⟨?_, ?_, ?_, ?_, ?_⟩
  · intro hds top'
    rw [Backward_diff_lt _ _ _ _ hi, if_pos hds]
  · intro hds hp1
    rw [Backward_diff_lt _ _ _ _ hi, if_neg hds, hp, if_pos hp1]
  · intro hds hp1 hp2
    rw [Backward_diff_lt _ _ _ _ hi, if_neg hds, hp, if_neg hp1, if_pos hp2]
  · intro hds hp1 hp2 hb0
    rw [Backward_diff_lt _ _ _ _ hi, if_neg hds, hp, hb, if_neg hp1, if_neg hp2, if_pos hb0]
  · intro hds hp1 hp2 hb0
    rw [Backward_diff_lt _ _ _ _ hi, if_neg hds, hp, hb, if_neg hp1, if_neg hp2, if_neg hb0]

/-- Witness of C15 (as amended): `power = 1, scale = 2` with upstream gradient
`5` leaves `5 * 2` in the bottom gradient. -/
theorem backward_chain_step_witness :
    (Backward (SetUp ⟨1, 2, 0⟩) (Blob.ofLists [] [5]) true (Blob.ofLists [(1 : ℚ)] [])).diff 0
      = (Blob.ofLists [] [(5 : ℚ)]).diff 0 * (SetUp (⟨1, 2, 0⟩ : PowerParameter ℚ)).diff_scale_ :=
  (backward_chain_step (⟨1, 2, 0⟩ : PowerParameter ℚ) (Blob.ofLists [] [5])
    (Blob.ofLists [1] []) 0 (by decide)).2.1 (by norm_num [SetUp]) rfl

/-- Counterexample to C15 as stated: with `power = 1, scale = 2, shift = 0`
(the constant-derivative branch, `diff_scale_ = 2`), input `1` and upstream
gradient `5`, `Backward` leaves `10 = 5 * 2` in the bottom gradient, not the
broadcast constant `2`. -/
theorem backward_constant_branch_counterexample :
    (SetUp (⟨1, 2, 0⟩ : PowerParameter ℚ)).diff_scale_ = 2
    ∧ (Backward (SetUp ⟨1, 2, 0⟩) (Blob.ofLists [] [5]) true
        (Blob.ofLists [(1 : ℚ)] [])).diff 0 = 10
    ∧ (Backward (SetUp ⟨1, 2, 0⟩) (Blob.ofLists [] [5]) true
        (Blob.ofLists [(1 : ℚ)] [])).diff 0
        ≠ (SetUp (⟨1, 2, 0⟩ : PowerParameter ℚ)).diff_scale_ := by
  have h : (Backward (SetUp ⟨1, 2, 0⟩) (Blob.ofLists [] [5]) true
      (Blob.ofLists [(1 : ℚ)] [])).diff 0 = 10 := by
    rw [Backward_diff_lt _ _ _ _ (by decide)]
    norm_num [SetUp, Blob.ofLists]
  refine ⟨by norm_num [SetUp], h, ?_⟩
  rw [h]
  norm_num [SetUp]

/-- C19. With propagation requested, `Backward` is linear in the upstream
gradient in every cell below the count, for every parameter set, input and
cached output: the result for `g1 + g2` is the sum of the results for `g1` and
`g2`, and the result for `c * g` is `c` times the result for `g` (with
`diff_scale_ = 0` all of them are `0`). -/
theorem backward_linear (param : PowerParameter α) (top bottom : Blob α)
    (g1 g2 g : Nat → α) (c : α) (i : Nat) (hi : i < bottom.count) :
    (Backward (SetUp param) { top with diff := fun k => g1 k + g2 k } true bottom).diff i
        = (Backward (SetUp param) { top with diff := g1 } true bottom).diff i
          + (Backward (SetUp param) { top with diff := g2 } true bottom).diff i
    ∧ (Backward (SetUp param) { top with diff := fun k => c * g k } true bottom).diff i
        = c * (Backward (SetUp param) { top with diff := g } true bottom).diff i := by
  rw [Backward_diff_lt _ _ _ _ hi, Backward_diff_lt _ _ _ _ hi, Backward_diff_lt _ _ _ _ hi,
    Backward_diff_lt _ _ _ _ hi, Backward_diff_lt _ _ _ _ hi]
  by_cases hds : (SetUp param).diff_scale_ = 0
  · simp only [if_pos hds]
    rw [hds]
    exact ⟨(add_zero 0).symm, (mul_zero c).symm⟩
  · simp only [if_neg hds]
    exact ⟨by ring, by ring⟩

/-- Witness of C19: `power = 3, scale = 2, shift = 1` at `x = 1`, `y = 27`, with
`g1 = 5`, `g2 = 7`, `c = 4`, `g = 11`. -/
theorem backward_linear_witness :
    (Backward (SetUp ⟨3, 2, 1⟩) { Blob.ofLists [27] [] with diff := fun _ => (5 : ℚ) + 7 } true
        (Blob.ofLists [(1 : ℚ)] [])).diff 0
      = (Backward (SetUp ⟨3, 2, 1⟩) { Blob.ofLists [27] [] with diff := fun _ => (5 : ℚ) } true
          (Blob.ofLists [(1 : ℚ)] [])).diff 0
        + (Backward (SetUp ⟨3, 2, 1⟩) { Blob.ofLists [27] [] with diff := fun _ => (7 : ℚ) } true
          (Blob.ofLists [(1 : ℚ)] [])).diff 0 :=
  (backward_linear (⟨3, 2, 1⟩ : PowerParameter ℚ) (Blob.ofLists [27] []) (Blob.ofLists [1] [])
    (fun _ => 5) (fun _ => 7) (fun _ => 11) 4 0 (by decide)).1

/-- C20. With `power = 1, scale = 1, shift = 0`, `SetUp` gives
`diff_scale_ = 1`, `Forward` copies the bottom data to the top data cell by
cell (whatever the power function), and `Backward` with propagation requested
copies the top gradient to the bottom gradient cell by cell. -/
theorem identity_configuration (pw : α → α → α) (top bottom : Blob α) :
    (SetUp (⟨1, 1, 0⟩ : PowerParameter α)).diff_scale_ = 1
    ∧ (∀ i, i < bottom.count →
        (Forward pw (SetUp ⟨1, 1, 0⟩) bottom top).1.data i = bottom.data i)
    ∧ (∀ i, i < bottom.count →
        (Backward (SetUp ⟨1, 1, 0⟩) top true bottom).diff i = top.diff i) := by
  have h1 : (SetUp (⟨1, 1, 0⟩ : PowerParameter α)).diff_scale_ = 1 := by
    simp only [SetUp, mul_one]
  refine ⟨h1, ?_, ?_⟩
  · intro i hi
    simp [Forward, SetUp, copy, hi]
  · intro i hi
    rw [Backward_diff_lt _ _ _ _ hi, h1, if_neg one_ne_zero]
    simp [SetUp]

/-- Witness of C20: on the input `[3, 4]` with upstream gradient `[5, 6]`, cell
`1` of the output is `4` and cell `1` of the bottom gradient is `6`. -/
theorem identity_configuration_witness :
    (Forward qpow (SetUp ⟨1, 1, 0⟩) (Blob.ofLists [3, 4] []) (Blob.ofLists [] [5, 6])).1.data 1
        = (Blob.ofLists [(3 : ℚ), 4] []).data 1
    ∧ (Backward (SetUp ⟨1, 1, 0⟩) (Blob.ofLists [] [5, 6]) true
        (Blob.ofLists [(3 : ℚ), 4] [])).diff 1 = (Blob.ofLists [] [(5 : ℚ), 6]).diff 1 :=
  ⟨(identity_configuration qpow (Blob.ofLists [] [5, 6]) (Blob.ofLists [3, 4] [])).2.1 1
      (by decide),
   (identity_configuration qpow (Blob.ofLists [] [5, 6]) (Blob.ofLists [3, 4] [])).2.2 1
      (by decide)⟩

end PowerLayer

end Caffe

namespace Caffe

namespace Im2colLayer

/-- C13. Identity padding: a configuration that `SetUp` accepts with both
strides `1` and kernel `2 * pad + 1` in both dimensions gets the output height
and width of the input; and for every `pad ≥ 0` the parameter set
`kernel_size = 2 * pad + 1`, `pad`, `stride = 1` is accepted, with that
output shape. -/
theorem setup_identity_padding (bottom : Shape) :
    (∀ (conv_param : ConvolutionParameter) (L : Im2colLayer) (out : Shape),
      SetUp conv_param bottom = .ok (L, out) →
      L.stride_h_ = 1 → L.stride_w_ = 1 →
      L.kernel_h_ = 2 * L.pad_h_ + 1 → L.kernel_w_ = 2 * L.pad_w_ + 1 →
      out.height = bottom.height ∧ out.width = bottom.width)
    ∧ (∀ pad : Int, 0 ≤ pad →
      SetUp { kernel_size_ := some (2 * pad + 1), pad_ := some pad, stride_ := some 1 } bottom
        = .ok (⟨2 * pad + 1, 2 * pad + 1, 1, 1, bottom.channels, bottom.height, bottom.width,
                pad, pad⟩,
               ⟨bottom.num, bottom.channels * (2 * pad + 1) * (2 * pad + 1), bottom.height,
                bottom.width⟩)) := by
  refine ⟨?_, ?_⟩
  · intro conv_param L out hok hsh hsw hkh hkw
    obtain ⟨-, -, -, -, -, -, -, -, hL, hout⟩ := SetUp_ok hok
    have hh : L.height_ = bottom.height := by rw [hL]
    have hw : L.width_ = bottom.width := by rw [hL]
    rw [hout]
    simp only [hsh, hsw, hkh, hkw, hh, hw, Int.tdiv_one]
    constructor <;> ring
  · intro pad hpad
    have hk : (0 : Int) < 2 * pad + 1 := by omega
    have e1 : bottom.height + 2 * pad - (2 * pad + 1) + 1 = bottom.height := by ring
    have e2 : bottom.width + 2 * pad - (2 * pad + 1) + 1 = bottom.width := by ring
    simp [SetUp, kernel_check_1, kernel_check_2, pad_check, stride_check, resolve_kernel,
      resolve_pad, resolve_stride, ConvolutionParameter.has_kernel_size,
      ConvolutionParameter.has_kernel_h, ConvolutionParameter.has_kernel_w,
      ConvolutionParameter.has_pad, ConvolutionParameter.has_pad_h,
      ConvolutionParameter.has_pad_w, ConvolutionParameter.has_stride,
      ConvolutionParameter.has_stride_h, ConvolutionParameter.has_stride_w,
      ConvolutionParameter.kernel_size, ConvolutionParameter.pad, ConvolutionParameter.stride,
      hk, Int.tdiv_one, e1, e2]

/-- Witness of C13: kernel `3`, pad `1`, stride `1` on a `4 × 4` input gives a
`4 × 4` output. -/
theorem setup_identity_padding_witness :
    (⟨1, 9, 4, 4⟩ : Shape).height = (⟨1, 1, 4, 4⟩ : Shape).height
    ∧ (⟨1, 9, 4, 4⟩ : Shape).width = (⟨1, 1, 4, 4⟩ : Shape).width :=
  (setup_identity_padding ⟨1, 1, 4, 4⟩).1
    { kernel_size_ := some 3, pad_ := some 1, stride_ := some 1 }
    ⟨3, 3, 1, 1, 1, 4, 4, 1, 1⟩ ⟨1, 9, 4, 4⟩ rfl rfl rfl rfl rfl

/-- C14 (the code at the failing input). With `kernel_size = 3` and
`kernel_h = 5` set and `kernel_w` not set, both kernel `CHECK`s pass and `SetUp`
succeeds with a `3 × 3` kernel, `kernel_h` being ignored; the pad `CHECK`, on
the same pattern (`pad` together with `pad_h` alone), stops `SetUp`. -/
theorem setup_accepts_partial_split_kernel :
    kernel_check_1 { kernel_size_ := some 3, kernel_h_ := some 5 } = true
    ∧ kernel_check_2 { kernel_size_ := some 3, kernel_h_ := some 5 } = true
    ∧ SetUp { kernel_size_ := some 3, kernel_h_ := some 5 } ⟨1, 1, 4, 4⟩
        = .ok (⟨3, 3, 1, 1, 1, 4, 4, 0, 0⟩, ⟨1, 9, 2, 2⟩)
    ∧ SetUp { kernel_size_ := some 3, pad_ := some 1, pad_h_ := some 1 } ⟨1, 1, 4, 4⟩
        = .error .pad_form :=
  ⟨rfl, rfl, rfl, rfl⟩

/-- C17. After a successful `SetUp`: when `pad_h` and `pad_w` are both absent
the cached pads are the unified `pad`, which reads `0` when it is not set,
otherwise they are `pad_h` and `pad_w`; when `stride_h` and `stride_w` are both
absent the cached strides are the unified `stride`, which reads `1` when it is
not set, otherwise they are `stride_h` and `stride_w`; and when `kernel_size` is
present both cached kernel extents are `kernel_size`. -/
theorem setup_resolution (conv_param : ConvolutionParameter) (bottom : Shape)
    (L : Im2colLayer) (out : Shape) (hok : SetUp conv_param bottom = .ok (L, out)) :
    ((conv_param.has_pad_h = false ∧ conv_param.has_pad_w = false) →
      L.pad_h_ = conv_param.pad ∧ L.pad_w_ = conv_param.pad)
    ∧ (conv_param.has_pad = false → conv_param.pad = 0)
    ∧ (¬ (conv_param.has_pad_h = false ∧ conv_param.has_pad_w = false) →
      L.pad_h_ = conv_param.pad_h ∧ L.pad_w_ = conv_param.pad_w)
    ∧ ((conv_param.has_stride_h = false ∧ conv_param.has_stride_w = false) →
      L.stride_h_ = conv_param.stride ∧ L.stride_w_ = conv_param.stride)
    ∧ (conv_param.has_stride = false → conv_param.stride = 1)
    ∧ (¬ (conv_param.has_stride_h = false ∧ conv_param.has_stride_w = false) →
      L.stride_h_ = conv_param.stride_h ∧ L.stride_w_ = conv_param.stride_w)
    ∧ (conv_param.has_kernel_size = true →
      L.kernel_h_ = conv_param.kernel_size ∧ L.kernel_w_ = conv_param.kernel_size) := by
  obtain ⟨-, -, hpad, hstride, -, -, -, -, hL, -⟩ := SetUp_ok hok
  rw [hL]
  refine ⟨?_, ?_, ?_, ?_, ?_, ?_, ?_⟩
  · rintro ⟨h1, -⟩
    simp [resolve_pad, h1]
  · intro h
    unfold ConvolutionParameter.has_pad at h
    unfold ConvolutionParameter.pad
    cases hp : conv_param.pad_ with
    | none => rfl
    | some v => rw [hp] at h; simp at h
  · intro h
    have h1 : conv_param.has_pad_h = true := by
      unfold pad_check at hpad
      revert h hpad
      cases conv_param.has_pad <;> cases conv_param.has_pad_h <;>
        cases conv_param.has_pad_w <;> simp
    simp [resolve_pad, h1]
  · rintro ⟨h1, -⟩
    simp [resolve_stride, h1]
  · intro h
    unfold ConvolutionParameter.has_stride at h
    unfold ConvolutionParameter.stride
    cases hp : conv_param.stride_ with
    | none => rfl
    | some v => rw [hp] at h; simp at h
  · intro h
    have h1 : conv_param.has_stride_h = true := by
      unfold stride_check at hstride
      revert h hstride
      cases conv_param.has_stride <;> cases conv_param.has_stride_h <;>
        cases conv_param.has_stride_w <;> simp
    simp [resolve_stride, h1]
  · intro h
    simp [resolve_kernel, h]

/-- Witness of C17: `kernel_size = 3` alone resolves to pad `0` and stride `1`;
`pad_h = 1, pad_w = 2` resolve to themselves. -/
theorem setup_resolution_witness :
    ((⟨3, 3, 1, 1, 1, 4, 4, 0, 0⟩ : Im2colLayer).pad_h_
        = ({ kernel_size_ := some 3 } : ConvolutionParameter).pad
      ∧ (⟨3, 3, 1, 1, 1, 4, 4, 0, 0⟩ : Im2colLayer).pad_w_
        = ({ kernel_size_ := some 3 } : ConvolutionParameter).pad)
    ∧ ((⟨3, 3, 1, 1, 1, 4, 4, 1, 2⟩ : Im2colLayer).pad_h_
        = ({ kernel_size_ := some 3, pad_h_ := some 1, pad_w_ := some 2 } :
            ConvolutionParameter).pad_h
      ∧ (⟨3, 3, 1, 1, 1, 4, 4, 1, 2⟩ : Im2colLayer).pad_w_
        = ({ kernel_size_ := some 3, pad_h_ := some 1, pad_w_ := some 2 } :
            ConvolutionParameter).pad_w) :=
  ⟨(setup_resolution { kernel_size_ := some 3 } ⟨1, 1, 4, 4⟩
      ⟨3, 3, 1, 1, 1, 4, 4, 0, 0⟩ ⟨1, 9, 2, 2⟩ rfl).1 ⟨rfl, rfl⟩,
   (setup_resolution { kernel_size_ := some 3, pad_h_ := some 1, pad_w_ := some 2 }
      ⟨1, 1, 4, 4⟩ ⟨3, 3, 1, 1, 1, 4, 4, 1, 2⟩ ⟨1, 9, 4, 6⟩ rfl).2.2.1 (by decide)⟩

/-- C18. After a successful `SetUp` with `stride_h_ ≥ 1` and the kernel no
higher than the padded input, the output height is at least `1`, the last patch
ends inside the padded input and one more patch would not; the same holds for
the width. -/
theorem setup_last_patch_fits (conv_param : ConvolutionParameter) (bottom : Shape)
    (L : Im2colLayer) (out : Shape) (hok : SetUp conv_param bottom = .ok (L, out)) :
    (1 ≤ L.stride_h_ → L.kernel_h_ ≤ bottom.height + 2 * L.pad_h_ →
      1 ≤ out.height
      ∧ (out.height - 1) * L.stride_h_ + L.kernel_h_ ≤ bottom.height + 2 * L.pad_h_
      ∧ bottom.height + 2 * L.pad_h_ < out.height * L.stride_h_ + L.kernel_h_)
    ∧ (1 ≤ L.stride_w_ → L.kernel_w_ ≤ bottom.width + 2 * L.pad_w_ →
      1 ≤ out.width
      ∧ (out.width - 1) * L.stride_w_ + L.kernel_w_ ≤ bottom.width + 2 * L.pad_w_
      ∧ bottom.width + 2 * L.pad_w_ < out.width * L.stride_w_ + L.kernel_w_) := by
  obtain ⟨-, -, -, -, -, -, -, -, hL, hout⟩ := SetUp_ok hok
  have hh : L.height_ = bottom.height := by rw [hL]
  have hw : L.width_ = bottom.width := by rw [hL]
  have key : ∀ N s : Int, 0 ≤ N → 1 ≤ s →
      1 ≤ N.tdiv s + 1 ∧ (N.tdiv s + 1 - 1) * s ≤ N ∧ N < (N.tdiv s + 1) * s := by
    intro N s hN hs
    have hs0 : 0 < s := by omega
    rw [Int.tdiv_eq_ediv hN hs0.le]
    have h1 : 0 ≤ N / s := Int.ediv_nonneg hN hs0.le
    have h2 : N / s * s ≤ N := Int.ediv_mul_le N (by omega)
    have h3 : N < (N / s + 1) * s := Int.lt_ediv_add_one_mul_self N hs0
    refine ⟨by omega, ?_, h3⟩
    have : N / s + 1 - 1 = N / s := by ring
    rw [this]; exact h2
  rw [hout, hh, hw]
  refine ⟨?_, ?_⟩
  · intro hs hk
    obtain ⟨a, b, c⟩ := key (bottom.height + 2 * L.pad_h_ - L.kernel_h_) L.stride_h_
      (by omega) hs
    simp only
    exact ⟨a, by omega, by omega⟩
  · intro hs hk
    obtain ⟨a, b, c⟩ := key (bottom.width + 2 * L.pad_w_ - L.kernel_w_) L.stride_w_
      (by omega) hs
    simp only
    exact ⟨a, by omega, by omega⟩

/-- Witness of C18: kernel `3`, stride `2`, no pad on height `8` gives output
height `3`: the last patch ends at `7 ≤ 8` and a fourth would end at `9 > 8`. -/
theorem setup_last_patch_fits_witness :
    (1 : Int) ≤ 3 ∧ ((3 : Int) - 1) * 2 + 3 ≤ 8 + 2 * 0 ∧ (8 : Int) + 2 * 0 < 3 * 2 + 3 :=
  (setup_last_patch_fits { kernel_size_ := some 3, stride_ := some 2 } ⟨1, 1, 8, 8⟩
    ⟨3, 3, 2, 2, 1, 8, 8, 0, 0⟩ ⟨1, 9, 3, 3⟩ rfl).1 (by decide) (by decide)

end Im2colLayer

end Caffe

namespace Caffe

/-- A cell of a row-major block has a row and a column. -/
theorem row_major_decode {n m k : Nat} (h : k < n * m) :
    ∃ a w, a < n ∧ w < m ∧ k = a * m + w := by
  have hm : 0 < m := by
    rcases Nat.eq_zero_or_pos m with h0 | h0
    · rw [h0, Nat.mul_zero] at h; omega
    · exact h0
  refine ⟨k / m, k % m, ?_, Nat.mod_lt k hm, ?_⟩
  · exact Nat.div_lt_of_lt_mul (by rw [Nat.mul_comm]; exact h)
  · rw [Nat.mul_comm]; exact (Nat.div_add_mod k m).symm

namespace Im2colLayer

variable {α : Type} [Field α]

/-- C16. For a configuration `SetUp` accepts and a top blob of the output
shape, the block of item `n` in the top data written by `Forward` (the
`channels·kernelH·kernelW·outH·outW` cells from the top's `offset(n)`) is the
unfold primitive applied, with the cached members, to the bottom data at the
bottom's `offset(n)`, whatever the column buffer held before; it only depends
on the `channels·height·width` cells of item `n` of the bottom data; no cell
beyond the top count is changed, the shape and the gradient buffer of the top
blob are kept, and the returned loss is `0`. -/
theorem forward_per_item (conv_param : ConvolutionParameter) (bottom top : Blob α)
    (L : Im2colLayer) (out : Shape) (hok : SetUp conv_param bottom.shape = .ok (L, out))
    (htop : top.shape = out) :
    (∀ n k, n < bottom.num → k < top.channels * top.height * top.width →
      ∀ data_col : Nat → α,
        (Forward L bottom top).1.data (top.offset n + k)
          = im2col (ptr_add bottom.data (bottom.offset n)) L.channels_ L.height_ L.width_
              L.kernel_h_ L.kernel_w_ L.pad_h_ L.pad_w_ L.stride_h_ L.stride_w_ data_col k)
    ∧ (∀ n k, n < bottom.num → k < top.channels * top.height * top.width →
      ∀ x : Nat → α,
        (∀ j, j < bottom.channels * bottom.height * bottom.width →
          x (bottom.offset n + j) = bottom.data (bottom.offset n + j)) →
        (Forward L { bottom with data := x } top).1.data (top.offset n + k)
          = (Forward L bottom top).1.data (top.offset n + k))
    ∧ (∀ k, top.count ≤ k → (Forward L bottom top).1.data k = top.data k)
    ∧ (Forward L bottom top).1.shape = top.shape
    ∧ (Forward L bottom top).1.diff = top.diff
    ∧ (Forward L bottom top).2 = 0 := by
  obtain ⟨-, -, -, -, hkh0, hkw0, -, -, hL, hout⟩ := SetUp_ok hok
  have hC : L.channels_ = bottom.channels := by rw [hL]; rfl
  have hH : L.height_ = bottom.height := by rw [hL]; rfl
  have hW : L.width_ = bottom.width := by rw [hL]; rfl
  have hkh : 0 < L.kernel_h_ := by rw [hL]; exact hkh0
  have hkw : 0 < L.kernel_w_ := by rw [hL]; exact hkw0
  rw [hout] at htop
  have hnum : top.num = bottom.num := by
    have := congrArg Shape.num htop
    simpa [Blob.shape] using this
  have hch : L.window.channels_col = top.channels := (congrArg Shape.channels htop).symm
  have hht : L.window.height_col = top.height := (congrArg Shape.height htop).symm
  have hwd : L.window.width_col = top.width := (congrArg Shape.width htop).symm
  have hch' : L.window.channels_col.toNat = top.channels := by rw [hch, Int.toNat_natCast]
  have hht' : L.window.height_col.toNat = top.height := by rw [hht, Int.toNat_natCast]
  have hwd' : L.window.width_col.toNat = top.width := by rw [hwd, Int.toNat_natCast]
  refine ⟨?_, ?_, ?_, rfl, rfl, rfl⟩
  · intro n k hn hk data_col
    obtain ⟨a, w, ha, hw, rfl⟩ := row_major_decode hk
    obtain ⟨c, h, hc, hh, rfl⟩ := row_major_decode ha
    rw [Forward_apply L bottom top hch hht hwd hn hc hh hw]
    have := im2col_hit (ptr_add bottom.data (bottom.offset n)) L.channels_ L.height_ L.width_
      L.kernel_h_ L.kernel_w_ L.pad_h_ L.pad_w_ L.stride_h_ L.stride_w_
      data_col L.window rfl (c := c) (h := h) (w := w)
      (by rw [hch']; exact hc) (by rw [hht']; exact hh) (by rw [hwd']; exact hw)
    rw [hht', hwd'] at this
    rw [this]
    rfl
  · intro n k hn hk x hx
    obtain ⟨a, w, ha, hw, rfl⟩ := row_major_decode hk
    obtain ⟨c, h, hc, hh, rfl⟩ := row_major_decode ha
    rw [Forward_apply L bottom top hch hht hwd hn hc hh hw,
      Forward_apply L { bottom with data := x } top hch hht hwd hn hc hh hw]
    by_cases hin : L.window.inside c h w
    · rw [if_pos hin, if_pos hin]
      exact hx _ (L.window.im_index_lt _ _ _ hC hH hW hkh hkw (by rw [hch']; exact hc) hin)
    · rw [if_neg hin, if_neg hin]
  · intro k hk
    rw [Blob.count_eq, hnum] at hk
    unfold Forward
    simp only
    apply for_loop_untouched
    intro d n' hn'
    rw [Int.toNat_natCast] at hn'
    have h1 : (n' + 1) * (top.channels * top.height * top.width)
        ≤ bottom.num * (top.channels * top.height * top.width) :=
      Nat.mul_le_mul_right _ hn'
    rw [Nat.add_mul, Nat.one_mul] at h1
    unfold ptr_store
    rw [Blob.offset_eq]
    rw [if_pos (by omega), im2col_untouched _ _ _ _ _ _ _ _ _ _ _ L.window rfl
      (by rw [hch', hht', hwd']; omega)]
    unfold ptr_add
    rw [Nat.add_sub_cancel' (by omega)]

/-- Witness of C16: kernel `2`, pad `1`, stride `1` on two `1 × 2 × 2` items;
cell `4` of the block of item `1` is the unfold of item `1` alone. -/
theorem forward_per_item_witness :
    (Forward ⟨2, 2, 1, 1, 1, 2, 2, 1, 1⟩
        { num := 2, channels := 1, height := 2, width := 2,
          data := fun i => (i : ℚ) + 1, diff := fun _ => 0 }
        { num := 2, channels := 4, height := 3, width := 3,
          data := fun _ => 7, diff := fun _ => 0 }).1.data
        (Blob.offset { num := 2, channels := 4, height := 3, width := 3,
                       data := fun _ => (7 : ℚ), diff := fun _ => 0 } 1 + 4)
      = im2col (ptr_add (fun i => (i : ℚ) + 1)
          (Blob.offset { num := 2, channels := 1, height := 2, width := 2,
                         data := fun i => (i : ℚ) + 1, diff := fun _ => 0 } 1))
          1 2 2 2 2 1 1 1 1 (fun _ => 0) 4 :=
  (forward_per_item { kernel_size_ := some 2, pad_ := some 1 }
    { num := 2, channels := 1, height := 2, width := 2,
      data := fun i => (i : ℚ) + 1, diff := fun _ => 0 }
    { num := 2, channels := 4, height := 3, width := 3,
      data := fun _ => 7, diff := fun _ => 0 }
    ⟨2, 2, 1, 1, 1, 2, 2, 1, 1⟩ ⟨2, 4, 3, 3⟩ rfl rfl).1 1 4 (by decide) (by decide)
    (fun _ => 0)

end Im2colLayer

end Caffe
